import Mathlib

/-!
# NU801 LED chain driver (`leds-nu801.c`): shallow embedding and properties

The driver bit-bangs a chain of NU801 three-channel LED controllers over a clock
line (CKI), a data line (SDI) and an optional latch line (LEI).

Conventions of the embedding:

* C `int` and `unsigned int` are 32 bits wide.  Unsigned arithmetic is reduced
  modulo `2^32` (`u32`); a value stored into an `int` object is reinterpreted in
  two's complement (`to_int`).  `u16` values are reduced modulo `2^16`.
* Arrays are lists.  An access through a slot outside the array is undefined
  behaviour in C and is reported as `outcome.oob`.
* Calls into the kernel (GPIO writes, delays, the LED class, the workqueue,
  `devm_kcalloc`) are modelled at their interface: GPIO writes and delays become
  events of a trace, the results of the LED class and of the allocator are given
  by `kernel`, the registrations made are recorded in `device`, and the delayed
  work item is the flag `delayed_work.queued`.
-/

namespace NU801

/-! ## Machine integers -/

/-- Reduction of an integer to an `unsigned int` (32 bits). -/
def u32 (x : Int) : Nat := (x % 4294967296).toNat

/-- Value of the `int` object holding the 32-bit pattern `n`. -/
def to_int (n : Nat) : Int :=
  if n % 4294967296 < 2147483648 then ((n % 4294967296 : Nat) : Int)
  else ((n % 4294967296 : Nat) : Int) - 4294967296

/-- Reduction of a natural number to a `u16`. -/
def u16 (n : Nat) : Nat := n % 65536

/-! ## Constants -/

def NUM_CHANNELS : Nat := 3
def LED_OFF : Nat := 0
def LED_FULL : Nat := 255
def ENOENT : Int := 2
def ENOMEM : Int := 12
def EEXIST : Int := 17
def EINVAL : Int := 22
/-- Settle time used instead of a latch pulse, in microseconds. -/
def LATCH_DELAY_US : Nat := 600

/-! ## Data model -/

/-- Per-LED record, `struct led_nu801_led_data`.  Of `cdev` only the flag word is kept. -/
structure led_nu801_led_data where
  cdev_flags : Nat
  level : Nat
  registered : Bool
  index : Nat
deriving DecidableEq, Repr

/-- Channel descriptor, `struct led_nu801_channel`; `fwnode` records whether a
device-tree node was attached to the slot. -/
structure led_nu801_channel where
  index : Nat
  init_brightness : Nat
  fwnode : Bool
deriving DecidableEq, Repr

/-- Chip descriptor, `struct led_nu801_chip`, with its `channels[NUM_CHANNELS]` array. -/
structure led_nu801_chip where
  index : Nat
  channels : List led_nu801_channel
deriving DecidableEq, Repr

/-- State of `struct delayed_work work`: whether the work item is queued. -/
structure delayed_work where
  queued : Bool
deriving DecidableEq, Repr

/-- Controller record, `struct led_nu801_data`.  `lei` tells whether a latch line is
configured (`controller->lei != NULL`); the clock and data lines always exist. -/
structure led_nu801_data where
  lei : Bool
  work : delayed_work
  led_chain : List led_nu801_led_data
  num_chips : Int
  num_leds : Int
  clock_delay_ns : Nat
  chain_data : List Nat
  chips : List led_nu801_chip
  pending : Int
deriving DecidableEq, Repr

/-- A zero-filled `led_nu801_led_data`, as `devm_kcalloc` leaves it. -/
def zero_led : led_nu801_led_data :=
  { cdev_flags := 0, level := 0, registered := false, index := 0 }

/-- A zero-filled channel descriptor. -/
def zero_channel : led_nu801_channel :=
  { index := 0, init_brightness := 0, fwnode := false }

/-- A zero-filled chip descriptor. -/
def zero_chip : led_nu801_chip :=
  { index := 0, channels := List.replicate NUM_CHANNELS zero_channel }

/-- Result of a function that may leave its arrays: a normal return with a code and
the resulting state, or an access through slot `slot` outside the array. -/
inductive outcome (σ : Type) where
  | ret (code : Int) (s : σ)
  | oob (slot : Int)
deriving DecidableEq, Repr

/-! ## Brightness encoding -/

/-- Source: `led_nu801_get_pwm_value`: `return value << 8 | value;` as a `u16`. -/
def led_nu801_get_pwm_value (value : Nat) : Nat :=
  u16 ((value <<< 8) ||| value)

/-! ## Index arithmetic of `led_nu801_create_chain` -/

/-- Source: `int chip_index = NUM_CHANNELS * (num_chips - led_chip->index - 1);`.
`led_chip->index` is unsigned, so the right-hand side is evaluated modulo `2^32`
and then stored into an `int`. -/
def chip_index (num_chips : Int) (led_chip_index : Nat) : Int :=
  to_int (u32 ((NUM_CHANNELS : Int) * (num_chips - (led_chip_index : Int) - 1)))

/-- Source: `int index = chip_index + NUM_CHANNELS - led_chip->channels[chan].index - 1;`
(again unsigned arithmetic stored into an `int`). -/
def chan_index (chip_idx : Int) (channel_index : Nat) : Int :=
  to_int (u32 (chip_idx + (NUM_CHANNELS : Int) - (channel_index : Int) - 1))

/-- Buffer index computed for the channel at position `c` of the chip at position `p`
in a chain of `C` chips. -/
def physical_index (C : Int) (p c : Nat) : Int :=
  chan_index (chip_index C p) c

/-! ## Kernel interface -/

/-- Behaviour of the kernel calls whose result the driver checks: the return code of
`devm_led_classdev_register_ext` for the LED at a buffer slot, and whether each of the
two `devm_kcalloc` calls of `led_nu801_create_chain` returns memory. -/
structure kernel where
  classdev_register : Nat → Int
  kcalloc_led_chain : Bool
  kcalloc_chain_data : Bool

/-- The parent `struct device`: the buffer slots of the LED class devices registered
on it so far, in registration order. -/
structure device where
  classdevs : List Nat
deriving DecidableEq, Repr

/-- Element `l[i]` of a C array indexed by an `int`; `none` outside the array. -/
def slot {α : Type} (l : List α) (i : Int) : Option α :=
  if i < 0 then none else l[i.toNat]?

/-- Source: `schedule_delayed_work`: queues the work item unless it is already queued. -/
def schedule_delayed_work (w : delayed_work) : delayed_work :=
  if w.queued then w else { w with queued := true }

/-- Source: `atomic_dec_and_test`: decrements the 32-bit counter and tells whether it
reached zero. -/
def atomic_dec_and_test (v : Int) : Int × Bool :=
  (to_int (u32 (v - 1)), decide (to_int (u32 (v - 1)) = 0))

/-! ## Transmission: `led_nu801_work` -/

/-- GPIO writes, delays and lock operations issued by the driver. -/
inductive event where
  | sdi (v : Bool)
  | cki (v : Bool)
  | lei (v : Bool)
  | ndelay (ns : Nat)
  | udelay (us : Nat)
  | mutex_lock
  | mutex_unlock
deriving DecidableEq, Repr

/-- Source: the inner loop `for (bit = 0x8000; bit; bit = bit >> 1)` of
`led_nu801_work`.  `last` is `index == num_leds - 1`; `fuel` bounds the number of
iterations of the model (sixteen are needed, see `bit_loop_fuel`). -/
def bit_loop (lei : Bool) (clock_delay_ns : Nat) (brightness : Nat) (last : Bool) :
    Nat → Nat → List event
  | 0, _ => []
  | fuel + 1, bit =>
    if bit = 0 then []
    else
      [event.sdi (decide (brightness &&& bit ≠ 0)), event.cki true,
        (if last && decide (bit = 1) && !lei then event.udelay LATCH_DELAY_US
         else event.ndelay clock_delay_ns),
        event.cki false, event.ndelay clock_delay_ns]
        ++ bit_loop lei clock_delay_ns brightness last fuel (u16 (bit >>> 1))

/-- Source: the outer loop `for (index = 0; index < num_leds; ++index)` of
`led_nu801_work`, with `todo` iterations left; `num_leds` is the unsigned local. -/
def word_loop (lei : Bool) (clock_delay_ns : Nat) (chain_data : List Nat) (num_leds : Nat) :
    Nat → Nat → List event
  | 0, _ => []
  | todo + 1, index =>
    bit_loop lei clock_delay_ns (chain_data.getD index 0)
        (decide (index = u32 ((num_leds : Int) - 1))) 16 32768
      ++ word_loop lei clock_delay_ns chain_data num_leds todo (index + 1)

/-- Source: `led_nu801_work`, lines 81-97: the shift loop under `chain_data_mutex`. -/
def led_nu801_work_shift (controller : led_nu801_data) : List event :=
  [event.mutex_lock]
    ++ word_loop controller.lei controller.clock_delay_ns controller.chain_data
        (u32 controller.num_leds) (u32 controller.num_leds) 0
    ++ [event.mutex_unlock]

/-- Source: `led_nu801_work`, lines 99-104: the latch pulse and `atomic_set(&pending, 1)`. -/
def led_nu801_work_finish (controller : led_nu801_data) : List event × led_nu801_data :=
  (if controller.lei then
      [event.lei true, event.ndelay controller.clock_delay_ns, event.lei false]
    else [],
   { controller with pending := 1 })

/-- Source: `led_nu801_work`: the events of one run and the controller afterwards. -/
def led_nu801_work (controller : led_nu801_data) : List event × led_nu801_data :=
  (led_nu801_work_shift controller ++ (led_nu801_work_finish controller).1,
   (led_nu801_work_finish controller).2)

/-! ## Brightness-set: `led_nu801_set` -/

/-- Source: `led_nu801_set`, called for the LED record `led_chain[led]`; returns the
return value and the controller afterwards. -/
def led_nu801_set (controller : led_nu801_data) (led : Nat) (value : Nat) :
    Int × led_nu801_data :=
  match controller.led_chain[led]? with
  | none => (0, controller)
  | some led_dat =>
    if led_dat.level ≠ value then
      let c1 := { controller with
        chain_data := controller.chain_data.set led_dat.index (led_nu801_get_pwm_value value) }
      let c2 := { c1 with led_chain := c1.led_chain.set led { led_dat with level := value } }
      let c3 := { c2 with pending := (atomic_dec_and_test c2.pending).1 }
      if (atomic_dec_and_test c2.pending).2 then
        (0, { c3 with work := schedule_delayed_work c3.work })
      else (0, c3)
    else (0, controller)

/-! ## Chain construction -/

/-- Source: `led_nu801_create`. -/
def led_nu801_create (k : kernel) (controller : led_nu801_data) (parent : device)
    (index : Int) (channel : led_nu801_channel) : outcome (led_nu801_data × device) :=
  match slot controller.led_chain index with
  | none => outcome.oob index
  | some led =>
    if led.registered then outcome.ret (-EEXIST) (controller, parent)
    else
      let led1 := { led with level := channel.init_brightness, index := u32 index }
      match slot controller.chain_data (led1.index : Int) with
      | none => outcome.oob (led1.index : Int)
      | some _ =>
        let c1 := { controller with
          led_chain := controller.led_chain.set index.toNat led1,
          chain_data := controller.chain_data.set led1.index
            (led_nu801_get_pwm_value channel.init_brightness) }
        if k.classdev_register index.toNat < 0 then
          outcome.ret (k.classdev_register index.toNat) (c1, parent)
        else
          outcome.ret 0
            ({ c1 with led_chain := c1.led_chain.set index.toNat { led1 with registered := true } },
             { parent with classdevs := parent.classdevs ++ [index.toNat] })

/-- Source: the loop `for (chan = 0; chan < NUM_CHANNELS; ++chan)` of
`led_nu801_create_chain`, with `todo` iterations left. -/
def create_chan_loop (k : kernel) (led_chip : led_nu801_chip) (chip_idx : Int) :
    Nat → Nat → led_nu801_data → device → outcome (led_nu801_data × device)
  | 0, _, controller, dev => outcome.ret 0 (controller, dev)
  | todo + 1, chan, controller, dev =>
    match led_chip.channels[chan]? with
    | none => outcome.oob (chan : Int)
    | some channel =>
      match led_nu801_create k controller dev (chan_index chip_idx channel.index) channel with
      | outcome.oob s => outcome.oob s
      | outcome.ret code (c, d) =>
        if code < 0 then outcome.ret code (c, d)
        else create_chan_loop k led_chip chip_idx todo (chan + 1) c d

/-- Source: the loop `for (chip = 0; chip < num_chips; ++chip)` of
`led_nu801_create_chain`, with `todo` iterations left. -/
def create_chip_loop (k : kernel) (num_chips : Int) :
    Nat → Nat → led_nu801_data → device → outcome (led_nu801_data × device)
  | 0, _, controller, dev => outcome.ret 0 (controller, dev)
  | todo + 1, chip, controller, dev =>
    match controller.chips[chip]? with
    | none => outcome.oob (chip : Int)
    | some led_chip =>
      match create_chan_loop k led_chip (chip_index num_chips led_chip.index)
          NUM_CHANNELS 0 controller dev with
      | outcome.oob s => outcome.oob s
      | outcome.ret code (c, d) =>
        if code < 0 then outcome.ret code (c, d)
        else create_chip_loop k num_chips todo (chip + 1) c d

/-- Source: `led_nu801_create_chain`. -/
def led_nu801_create_chain (k : kernel) (controller : led_nu801_data) (dev : device) :
    outcome (led_nu801_data × device) :=
  let c0 := { controller with pending := 1 }
  if !k.kcalloc_led_chain then outcome.ret (-ENOMEM) (c0, dev)
  else
    let c1 := { c0 with led_chain := List.replicate c0.num_leds.toNat zero_led }
    if !k.kcalloc_chain_data then outcome.ret (-ENOMEM) (c1, dev)
    else
      let c2 := { c1 with chain_data := List.replicate c1.num_leds.toNat 0 }
      let c3 := { c2 with work := { queued := false } }
      match create_chip_loop k c3.num_chips c3.num_chips.toNat 0 c3 dev with
      | outcome.oob s => outcome.oob s
      | outcome.ret code (c, d) =>
        if code < 0 then outcome.ret code (c, d)
        else outcome.ret 0 ({ c with work := schedule_delayed_work c.work }, d)

/-! ## Device-tree parsing -/

/-- Result of reading a device-tree property: the value, or the error code returned. -/
inductive of_read (α : Type) where
  | ok (v : α)
  | error (ret : Int)
deriving DecidableEq, Repr

/-- A channel node of the device tree: whether it is available, its `reg` cell as
`of_property_read_u32` reads it, and its `default-state` string as
`of_property_read_string` reads it. -/
structure channel_node where
  available : Bool
  reg : of_read Nat
  default_state : of_read String
deriving DecidableEq, Repr

/-- A chip node of the device tree with its child nodes in order. -/
structure chip_node where
  reg : of_read Nat
  children : List channel_node
deriving DecidableEq, Repr

/-- Source: `leds_nu801_parse_channel`.  `chan_index` is an `int` that receives the
`u32` cell, and `chan_index >= NUM_CHANNELS` compares two `int`s. -/
def leds_nu801_parse_channel (led_chip : led_nu801_chip) (channel : channel_node) :
    outcome led_nu801_chip :=
  match channel.reg with
  | of_read.error ret => outcome.ret ret led_chip
  | of_read.ok v =>
    let chan_index : Int := to_int v
    if chan_index ≥ (NUM_CHANNELS : Int) then outcome.ret (-EINVAL) led_chip
    else
      match slot led_chip.channels chan_index with
      | none => outcome.oob chan_index
      | some led_channel =>
        let default_state : String :=
          match channel.default_state with
          | of_read.ok s => s
          | of_read.error _ => "off"
        let ch1 := { led_channel with index := u32 chan_index, fwnode := true,
                                      init_brightness := LED_OFF }
        let ch2 := if default_state = "on" then { ch1 with init_brightness := LED_FULL } else ch1
        outcome.ret 0 { led_chip with channels := led_chip.channels.set chan_index.toNat ch2 }

/-- Source: the loop `for_each_child_of_node(chip, channel)` of `leds_nu801_parse_chip`. -/
def parse_channels_loop : List channel_node → led_nu801_chip → outcome led_nu801_chip
  | [], led_chip => outcome.ret 0 led_chip
  | channel :: rest, led_chip =>
    match leds_nu801_parse_channel led_chip channel with
    | outcome.oob s => outcome.oob s
    | outcome.ret code c =>
      if code ≠ 0 then outcome.ret code c else parse_channels_loop rest c

/-- Source: `leds_nu801_parse_chip`.  `chip_index` is an `int` that receives the `u32`
cell, and `chip_index >= controller->num_chips` compares two `int`s. -/
def leds_nu801_parse_chip (controller : led_nu801_data) (chip : chip_node) :
    outcome led_nu801_data :=
  match chip.reg with
  | of_read.error ret => outcome.ret ret controller
  | of_read.ok v =>
    let chip_index : Int := to_int v
    if chip_index ≥ controller.num_chips then outcome.ret (-EINVAL) controller
    else
      match slot controller.chips chip_index with
      | none => outcome.oob chip_index
      | some led_chip =>
        let led_chip1 := { led_chip with index := u32 chip_index }
        let c1 := { controller with chips := controller.chips.set chip_index.toNat led_chip1 }
        let num_channels := (chip.children.filter (fun n => n.available)).length
        if num_channels = 0 then outcome.ret (-EINVAL) c1
        else if num_channels > 3 then outcome.ret (-EINVAL) c1
        else
          match parse_channels_loop chip.children led_chip1 with
          | outcome.oob s => outcome.oob s
          | outcome.ret code led_chip2 =>
            outcome.ret code { c1 with chips := c1.chips.set chip_index.toNat led_chip2 }

/-! ## Observations on a GPIO trace -/

/-- Bits of a 16-bit word, most significant first. -/
def word_bits (w : Nat) : List Bool :=
  (List.range 16).map (fun k => w.testBit (15 - k))

/-- Bits of a buffer in wire order: word 0 first, each word most significant bit first. -/
def chain_bits (chain_data : List Nat) : List Bool :=
  chain_data.flatMap word_bits

/-- Data-line values present at the rising edges of the clock, in order; `clk` and
`dat` are the levels of the clock and data lines before the trace. -/
def sampled_bits : Bool → Bool → List event → List Bool
  | _, _, [] => []
  | clk, _, event.sdi v :: t => sampled_bits clk v t
  | clk, dat, event.cki v :: t =>
    if !clk && v then dat :: sampled_bits v dat t else sampled_bits v dat t
  | clk, dat, _ :: t => sampled_bits clk dat t

/-- Number of writes that raise the clock line. -/
def clock_rises (tr : List event) : Nat :=
  tr.count (event.cki true)

/-- Phase of the clock/data protocol: clock low and no data written since the last
fall, clock low and data written, clock high. -/
inductive line_phase where
  | low_idle
  | low_data
  | high
deriving DecidableEq, Repr

/-- Checks the ordering of line writes: data is written only while the clock is low,
the clock is raised only after a data write made since its last fall, it is lowered only
while high, and the trace ends with the clock low. -/
def well_clocked : line_phase → List event → Bool
  | ph, [] => decide (ph ≠ line_phase.high)
  | ph, event.sdi _ :: t => decide (ph ≠ line_phase.high) && well_clocked line_phase.low_data t
  | ph, event.cki true :: t => decide (ph = line_phase.low_data) && well_clocked line_phase.high t
  | ph, event.cki false :: t => decide (ph = line_phase.high) && well_clocked line_phase.low_idle t
  | ph, _ :: t => well_clocked ph t

/-- The writes to the latch line, in order. -/
def latch_writes (tr : List event) : List event :=
  tr.filter (fun e => match e with
    | event.lei _ => true
    | _ => false)

/-- Value of a bit string read most significant bit first. -/
def word_of_bits (bs : List Bool) : Nat :=
  bs.foldl (fun acc b => 2 * acc + (if b then 1 else 0)) 0

/-- The first `n` 16-bit words of a bit string. -/
def words_of_bits : Nat → List Bool → List Nat
  | 0, _ => []
  | n + 1, bs => word_of_bits (bs.take 16) :: words_of_bits n (bs.drop 16)

/-- Words received by the chain from a trace that starts with clock and data low. -/
def wire_words (tr : List event) : List Nat :=
  words_of_bits ((sampled_bits false false tr).length / 16) (sampled_bits false false tr)

/-! ## Scheduler step model

Brightness-set calls and the worker interleave.  A `led_nu801_set` call is one step.
The worker is three steps: the workqueue starts `led_nu801_work` (the work item leaves
the queue; the workqueue never runs one work item twice at a time), the shift loop runs
under the buffer lock, and the rest of the function (latch pulse, `atomic_set`) runs. -/

/-- Where the worker stands in `led_nu801_work`. -/
inductive worker_pc where
  | idle
  | shifting
  | latching
deriving DecidableEq, Repr

/-- The controller, the worker position, and the events of the latest shift loop. -/
structure sys where
  controller : led_nu801_data
  pc : worker_pc
  wire : List event
deriving DecidableEq, Repr

/-- Steps of the model. -/
inductive action where
  | set (led : Nat) (value : Nat)
  | work_start
  | work_shift
  | work_finish
deriving DecidableEq, Repr

/-- One step; `none` when the step is not enabled. -/
def step (s : sys) : action → Option sys
  | action.set led value =>
    some { s with controller := (led_nu801_set s.controller led value).2 }
  | action.work_start =>
    if s.controller.work.queued && decide (s.pc = worker_pc.idle) then
      some { s with controller := { s.controller with work := { queued := false } },
                    pc := worker_pc.shifting }
    else none
  | action.work_shift =>
    if s.pc = worker_pc.shifting then
      some { s with wire := led_nu801_work_shift s.controller, pc := worker_pc.latching }
    else none
  | action.work_finish =>
    if s.pc = worker_pc.latching then
      some { s with controller := (led_nu801_work_finish s.controller).2, pc := worker_pc.idle }
    else none

/-- Runs a sequence of steps. -/
def run : sys → List action → Option sys
  | s, [] => some s
  | s, a :: rest =>
    match step s a with
    | none => none
    | some s1 => run s1 rest

/-- Number of transmissions that are scheduled or running. -/
def in_flight (s : sys) : Nat :=
  (if s.controller.work.queued then 1 else 0) + (if s.pc = worker_pc.idle then 0 else 1)

/-- The state in which `led_nu801_create_chain` leaves the system after returning `0`. -/
def sys_of_create (r : outcome (led_nu801_data × device)) : Option sys :=
  match r with
  | outcome.ret 0 (c, _) => some { controller := c, pc := worker_pc.idle, wire := [] }
  | _ => none

/-! ## Normal form of a transmission (used to state and prove the trace lemmas) -/

/-- Events issued by one pass of the loop body of `led_nu801_work` for the bit at
position `j` (mask `2 ^ j`) of the word `w`. -/
def bit_events (lei : Bool) (clock_delay_ns : Nat) (w : Nat) (last : Bool) (j : Nat) :
    List event :=
  [event.sdi (w.testBit j), event.cki true,
    (if last && decide (j = 0) && !lei then event.udelay LATCH_DELAY_US
     else event.ndelay clock_delay_ns),
    event.cki false, event.ndelay clock_delay_ns]

/-- Bit positions from `k` down to `0`. -/
def bits_down (k : Nat) : List Nat :=
  (List.range (k + 1)).reverse

/-! ## Example configurations -/

/-- A controller holding a two-word buffer, with a latch line. -/
def example_latched : led_nu801_data :=
  { lei := true, work := { queued := false },
    led_chain := [{ cdev_flags := 0, level := 255, registered := true, index := 0 },
                  { cdev_flags := 0, level := 5, registered := true, index := 1 }],
    num_chips := 1, num_leds := 2, clock_delay_ns := 500,
    chain_data := [65535, 1285], chips := [], pending := 0 }

/-- The second LED record of `example_latched`. -/
def example_led : led_nu801_led_data :=
  { cdev_flags := 0, level := 5, registered := true, index := 1 }

/-- The controller `example_latched` when idle (`pending = 1`). -/
def example_idle : led_nu801_data :=
  { example_latched with pending := 1 }

/-- The same controller without a latch line. -/
def example_unlatched : led_nu801_data :=
  { example_latched with lei := false }

/-- A kernel in which every allocation and every registration succeeds. -/
def kernel_ok : kernel :=
  { classdev_register := fun _ => 0, kcalloc_led_chain := true, kcalloc_chain_data := true }

/-- A parsed one-chip chain: chip 0 with channels 0, 1 and 2, all initially off, with
a latch line and the default clock delay. -/
def example_parsed : led_nu801_data :=
  { lei := true, work := { queued := false }, led_chain := [], num_chips := 1, num_leds := 3,
    clock_delay_ns := 500, chain_data := [],
    chips := [{ index := 0, channels := [{ index := 0, init_brightness := 0, fwnode := true },
                                          { index := 1, init_brightness := 0, fwnode := true },
                                          { index := 2, init_brightness := 0, fwnode := true }] }],
    pending := 0 }

/-- The system right after `led_nu801_create_chain` on `example_parsed`. -/
def example_created : Option sys :=
  sys_of_create (led_nu801_create_chain kernel_ok example_parsed { classdevs := [] })

/-- A controller whose only LED record is not registered. -/
def example_unregistered : led_nu801_data :=
  { lei := true, work := { queued := false }, led_chain := [zero_led], num_chips := 1,
    num_leds := 1, clock_delay_ns := 500, chain_data := [0], chips := [], pending := 1 }

/-! ## Construction as a list of registrations (used to state and prove the chain lemmas) -/

/-- Runs `led_nu801_create` over a list of (buffer index, channel) pairs in order,
stopping at the first negative return code, as the loops of `led_nu801_create_chain` do. -/
def create_all (k : kernel) :
    List (Int × led_nu801_channel) → led_nu801_data → device → outcome (led_nu801_data × device)
  | [], c, d => outcome.ret 0 (c, d)
  | (i, ch) :: rest, c, d =>
    match led_nu801_create k c d i ch with
    | outcome.oob s => outcome.oob s
    | outcome.ret code (c1, d1) =>
      if code < 0 then outcome.ret code (c1, d1) else create_all k rest c1 d1

/-- The (buffer index, channel) pairs of one chip, in the order of its `channels` array. -/
def chip_jobs (num_chips : Int) (led_chip : led_nu801_chip) : List (Int × led_nu801_channel) :=
  led_chip.channels.map
    (fun ch => (chan_index (chip_index num_chips led_chip.index) ch.index, ch))

/-- The (buffer index, channel) pairs of a `chips` array, chip by chip. -/
def chain_jobs (num_chips : Int) (chips : List led_nu801_chip) :
    List (Int × led_nu801_channel) :=
  chips.flatMap (chip_jobs num_chips)

/-- The controller as `led_nu801_create_chain` has it when it enters its chip loop, both
allocations having succeeded: `pending` set to 1, zero-filled `led_chain` and
`chain_data`, and the work item initialised. -/
def fresh_chain (controller : led_nu801_data) : led_nu801_data :=
  { controller with
      pending := 1,
      led_chain := List.replicate controller.num_leds.toNat zero_led,
      chain_data := List.replicate controller.num_leds.toNat 0,
      work := { queued := false } }

/-- Modelled from the spec: the "retain state at shutdown" policy flag of the LED class,
`LED_RETAIN_AT_SHUTDOWN`, which the kernel header `linux/leds.h` (not part of this
repository) defines as bit 22 of `cdev.flags`. -/
def LED_RETAIN_AT_SHUTDOWN : Nat := 4194304

/-- Source: `led_nu801_delete`, called for the LED record `led_chain[led]`;
`devm_led_classdev_unregister` removes the class device from the parent device. -/
def led_nu801_delete (controller : led_nu801_data) (dev : device) (led : Nat) :
    led_nu801_data × device :=
  match controller.led_chain[led]? with
  | none => (controller, dev)
  | some led_dat =>
    if led_dat.registered then
      let c1 :=
        if led_dat.cdev_flags &&& LED_RETAIN_AT_SHUTDOWN = 0 then
          (led_nu801_set controller led LED_OFF).2
        else controller
      (c1, { dev with classdevs := dev.classdevs.erase led })
    else (controller, dev)

/-- Source: the loop `for (index = 0; index < num_leds; index++)` of
`led_nu801_delete_chain`, with `todo` iterations left. -/
def delete_loop : Nat → Nat → led_nu801_data → device → outcome (led_nu801_data × device)
  | 0, _, controller, dev => outcome.ret 0 (controller, dev)
  | todo + 1, index, controller, dev =>
    match controller.led_chain[index]? with
    | none => outcome.oob (index : Int)
    | some _ =>
      delete_loop todo (index + 1) (led_nu801_delete controller dev index).1
        (led_nu801_delete controller dev index).2

/-- Source: `led_nu801_delete_chain`.  `flush_delayed_work` runs the work item if it is
queued and `cancel_delayed_work_sync` leaves it unqueued; the events are those of the
flushed transmission.  The function returns nothing; the code of the result is 0. -/
def led_nu801_delete_chain (controller : led_nu801_data) (dev : device) :
    outcome (List event × led_nu801_data × device) :=
  match delete_loop controller.num_leds.toNat 0 controller dev with
  | outcome.oob s => outcome.oob s
  | outcome.ret _ (c, d) =>
    if c.work.queued then
      outcome.ret 0 ((led_nu801_work c).1,
        { (led_nu801_work c).2 with work := { queued := false } }, d)
    else outcome.ret 0 ([], { c with work := { queued := false } }, d)

/-- What `led_nu801_delete` leaves of an LED record: a registered record whose retain
flag is clear gets level 0, any other record is unchanged. -/
def off_led (led : led_nu801_led_data) : led_nu801_led_data :=
  if led.registered && decide (led.cdev_flags &&& LED_RETAIN_AT_SHUTDOWN = 0) then
    { led with level := LED_OFF }
  else led

/-! ## Consistency of the LED records with the buffer -/

/-- Every registered LED record sits at the slot its `index` names, and the buffer word
at that index is the encoding of its recorded level; both arrays have `num_leds`
entries. -/
def chain_inv (c : led_nu801_data) : Prop :=
  c.led_chain.length = c.num_leds.toNat ∧ c.chain_data.length = c.num_leds.toNat
  ∧ ∀ (i : Nat) (led : led_nu801_led_data), c.led_chain[i]? = some led → led.registered = true →
      led.index = i ∧ c.chain_data[i]? = some (led_nu801_get_pwm_value led.level)

/-- Operations on a constructed chain: a brightness-set call on an LED record, a run of
the worker, a `led_nu801_delete` call on an LED record. -/
inductive chain_op where
  | set (led : Nat) (value : Nat)
  | work
  | delete (led : Nat)
deriving DecidableEq, Repr

/-- Applies one operation. -/
def apply_op (s : led_nu801_data × device) : chain_op → led_nu801_data × device
  | chain_op.set led value => ((led_nu801_set s.1 led value).2, s.2)
  | chain_op.work => ((led_nu801_work s.1).2, s.2)
  | chain_op.delete led => led_nu801_delete s.1 s.2 led

/-- Applies a sequence of operations in order. -/
def apply_ops (s : led_nu801_data × device) (ops : List chain_op) : led_nu801_data × device :=
  ops.foldl apply_op s

/-! ## Observations on scheduling and locking -/

/-- Whether a `led_nu801_set` call reaches `schedule_delayed_work`: the call is run with
the work item unqueued and the work item is looked at afterwards. -/
def set_schedules (controller : led_nu801_data) (led value : Nat) : Bool :=
  (led_nu801_set { controller with work := { queued := false } } led value).2.work.queued

/-- Runs brightness-set calls `(led, value)` one after the other. -/
def set_calls (controller : led_nu801_data) : List (Nat × Nat) → led_nu801_data
  | [] => controller
  | (led, value) :: rest => set_calls (led_nu801_set controller led value).2 rest

/-- For each call of a sequence, whether it reaches `schedule_delayed_work`. -/
def schedule_flags (controller : led_nu801_data) : List (Nat × Nat) → List Bool
  | [] => []
  | (led, value) :: rest =>
    set_schedules controller led value
      :: schedule_flags (led_nu801_set controller led value).2 rest

/-- Whether every call of a sequence asks for a level other than the one the LED record
has when the call is made. -/
def level_changing (controller : led_nu801_data) : List (Nat × Nat) → Prop
  | [] => True
  | (led, value) :: rest =>
    (∃ led_dat, controller.led_chain[led]? = some led_dat ∧ led_dat.level ≠ value)
    ∧ level_changing (led_nu801_set controller led value).2 rest

/-- Number of clock and data writes made while the buffer lock is held (`want = true`)
or not held (`want = false`); `held` tells whether the lock is held before the trace. -/
def clock_data_writes (want : Bool) : Bool → List event → Nat
  | _, [] => 0
  | _, event.mutex_lock :: t => clock_data_writes want true t
  | _, event.mutex_unlock :: t => clock_data_writes want false t
  | held, event.sdi _ :: t => (if held = want then 1 else 0) + clock_data_writes want held t
  | held, event.cki _ :: t => (if held = want then 1 else 0) + clock_data_writes want held t
  | held, _ :: t => clock_data_writes want held t

/-- Level of the clock line after a trace, `lvl` being its level before. -/
def clock_level : Bool → List event → Bool
  | lvl, [] => lvl
  | _, event.cki v :: t => clock_level v t
  | lvl, _ :: t => clock_level lvl t

/-- Level of the latch line after a trace, `lvl` being its level before. -/
def latch_level : Bool → List event → Bool
  | lvl, [] => lvl
  | _, event.lei v :: t => latch_level v t
  | lvl, _ :: t => latch_level lvl t

/-! ## Probe: `leds_nu801_create_of` -/

/-- The controller node of the device tree as `leds_nu801_create_of` reads it: the
results of the three GPIO lookups (`lei` with error `-ENOENT` means no latch line), of
reading `clock-delay-ns`, and the available child (chip) nodes in order. -/
structure controller_node where
  cki : of_read Unit
  sdi : of_read Unit
  lei : of_read Unit
  clock_delay_ns : of_read Nat
  children : List chip_node
deriving DecidableEq, Repr

/-- Source: the loop `for_each_available_child_of_node(np, chip)` of
`leds_nu801_create_of`. -/
def parse_chips_loop : List chip_node → led_nu801_data → outcome led_nu801_data
  | [], controller => outcome.ret 0 controller
  | chip :: rest, controller =>
    match leds_nu801_parse_chip controller chip with
    | outcome.oob s => outcome.oob s
    | outcome.ret code c =>
      if code ≠ 0 then outcome.ret code c else parse_chips_loop rest c

/-- Source: `leds_nu801_create_of`; `kzalloc_controller` and `kcalloc_chips` tell whether
its two allocations return memory.  An `ERR_PTR(ret)` result is `outcome.ret ret`, the
controller pointer is `outcome.ret 0`. -/
def leds_nu801_create_of (k : kernel) (kzalloc_controller kcalloc_chips : Bool)
    (np : controller_node) (dev : device) : outcome (led_nu801_data × device) :=
  let c0 : led_nu801_data :=
    { lei := false, work := { queued := false }, led_chain := [], num_chips := 0,
      num_leds := 0, clock_delay_ns := 0, chain_data := [], chips := [], pending := 0 }
  if !kzalloc_controller then outcome.ret (-ENOMEM) (c0, dev)
  else
    match np.cki with
    | of_read.error ret => outcome.ret ret (c0, dev)
    | of_read.ok _ =>
      match np.sdi with
      | of_read.error ret => outcome.ret ret (c0, dev)
      | of_read.ok _ =>
        match (match np.lei with
          | of_read.ok _ => of_read.ok true
          | of_read.error ret => if ret = -ENOENT then of_read.ok false else of_read.error ret) with
        | of_read.error ret => outcome.ret ret (c0, dev)
        | of_read.ok lei =>
          let delay : Nat :=
            match np.clock_delay_ns with
            | of_read.ok v => v
            | of_read.error _ => 500
          let c1 := { c0 with lei := lei, clock_delay_ns := delay }
          let c2 := { c1 with num_chips := (np.children.length : Int) }
          if c2.num_chips = 0 then outcome.ret (-EINVAL) (c2, dev)
          else if !kcalloc_chips then outcome.ret (-ENOMEM) (c2, dev)
          else
            let c3 := { c2 with chips := List.replicate c2.num_chips.toNat zero_chip }
            let c4 := { c3 with num_leds := to_int (u32 ((NUM_CHANNELS : Int) * c3.num_chips)) }
            match parse_chips_loop np.children c4 with
            | outcome.oob s => outcome.oob s
            | outcome.ret code c5 =>
              if code ≠ 0 then outcome.ret code (c5, dev)
              else
                match led_nu801_create_chain k c5 dev with
                | outcome.oob s => outcome.oob s
                | outcome.ret code1 (c6, d6) =>
                  if code1 < 0 then outcome.ret code1 (c6, d6) else outcome.ret 0 (c6, d6)

/-- A channel node with the given `reg`, initially off. -/
def channel_reg (r : Nat) : channel_node :=
  { available := true, reg := of_read.ok r, default_state := of_read.error (-EINVAL) }

/-- A controller node with clock, data and latch lines and one chip at `reg = 0` whose
channel nodes have the given `reg` values. -/
def node_with_channels (regs : List Nat) : controller_node :=
  { cki := of_read.ok (), sdi := of_read.ok (), lei := of_read.ok (),
    clock_delay_ns := of_read.error (-EINVAL),
    children := [{ reg := of_read.ok 0, children := regs.map channel_reg }] }

/-- The controller that `led_nu801_create_chain` returns for `example_parsed`. -/
def example_constructed : led_nu801_data :=
  { example_parsed with
      pending := 1, work := { queued := true }, chain_data := [0, 0, 0],
      led_chain := [{ cdev_flags := 0, level := 0, registered := true, index := 0 },
                    { cdev_flags := 0, level := 0, registered := true, index := 1 },
                    { cdev_flags := 0, level := 0, registered := true, index := 2 }] }

/-- A sequence of operations on `example_constructed`. -/
def example_ops : List chain_op :=
  [chain_op.set 2 255, chain_op.work, chain_op.delete 1, chain_op.set 7 9]

/-- The record of LED 2 after `example_ops`. -/
def example_lit : led_nu801_led_data :=
  { cdev_flags := 0, level := 255, registered := true, index := 2 }

/-- A consistent two-LED controller with a queued transmission: LED 0 is lit and has the
retain flag clear, LED 1 is lit and has the retain flag set. -/
def example_teardown : led_nu801_data :=
  { lei := false, work := { queued := true },
    led_chain := [{ cdev_flags := 0, level := 255, registered := true, index := 0 },
                  { cdev_flags := 4194304, level := 5, registered := true, index := 1 }],
    num_chips := 1, num_leds := 2, clock_delay_ns := 500,
    chain_data := [65535, 1285], chips := [], pending := 0 }

/-! ## Observations on holds and on the lock -/

/-- The lock acquires and releases of a trace, in order. -/
def lock_events (tr : List event) : List event :=
  tr.filter (fun e => match e with
    | event.mutex_lock => true
    | event.mutex_unlock => true
    | _ => false)

/-- The clock and data writes of a trace, in order. -/
def line_writes (tr : List event) : List event :=
  tr.filter (fun e => match e with
    | event.sdi _ => true
    | event.cki _ => true
    | _ => false)

/-! ## Machine-integer lemmas -/

theorem to_int_u32 (x : Int) (h0 : 0 ≤ x) (h1 : x < 2147483648) : to_int (u32 x) = x := by
  unfold to_int u32
  omega

theorem u32_of_nat (n : Nat) (h : n < 4294967296) : u32 (n : Int) = n := by
  unfold u32
  omega

theorem chip_index_eq (C : Int) (p : Nat) (hrange : 3 * C < 2147483648) (hp : (p : Int) < C) :
    chip_index C p = 3 * (C - p - 1) := by
  unfold chip_index NUM_CHANNELS
  rw [to_int_u32 _ (by push_cast; omega) (by push_cast; omega)]
  push_cast; ring

theorem physical_index_eq (C : Int) (p c : Nat) (hrange : 3 * C < 2147483648)
    (hp : (p : Int) < C) (hc : c < 3) :
    physical_index C p c = 3 * (C - p - 1) + (2 - c) := by
  unfold physical_index chan_index
  rw [chip_index_eq C p hrange hp]
  unfold NUM_CHANNELS
  rw [to_int_u32 _ (by push_cast; omega) (by push_cast; omega)]
  push_cast; omega

theorem pwm_eq (level : Nat) (h : level < 256) :
    led_nu801_get_pwm_value level = level * 256 + level := by
  unfold led_nu801_get_pwm_value u16
  have := @Nat.mul_add_lt_is_or 8 level (by simpa using h) level
  rw [Nat.shiftLeft_eq, Nat.mul_comm, ← this]
  omega

/-! ## Index mapping -/

/-- C1: for every chip count `C ≥ 1` whose LED count `3 * C` fits the `int` field
`num_leds`, every chip position `p < C` and channel position `c < 3`, the buffer index
computed by `led_nu801_create_chain` is `3 * (C - p - 1) + (2 - c)` and lies in
`[0, 3 * C)`; for `C = 2` the four corner channels map to 5, 3, 2 and 0. -/
theorem index_mapping (C : Int) (p c : Nat) (hC : 1 ≤ C) (hrange : 3 * C < 2147483648)
    (hp : (p : Int) < C) (hc : c < 3) :
    physical_index C p c = 3 * (C - p - 1) + (2 - c)
    ∧ 0 ≤ physical_index C p c ∧ physical_index C p c < 3 * C
    ∧ physical_index 2 0 0 = 5 ∧ physical_index 2 0 2 = 3
    ∧ physical_index 2 1 0 = 2 ∧ physical_index 2 1 2 = 0 := by
  have e := physical_index_eq C p c hrange hp hc
  refine ⟨e, ?_, ?_, by decide, by decide, by decide, by decide⟩
  · rw [e]; omega
  · rw [e]; omega

theorem index_mapping_witness :
    physical_index 4 1 2 = 3 * (4 - ((1 : Nat) : Int) - 1) + (2 - ((2 : Nat) : Int))
    ∧ 0 ≤ physical_index 4 1 2 ∧ physical_index 4 1 2 < 3 * 4
    ∧ physical_index 2 0 0 = 5 ∧ physical_index 2 0 2 = 3
    ∧ physical_index 2 1 0 = 2 ∧ physical_index 2 1 2 = 0 :=
  index_mapping 4 1 2 (by decide) (by decide) (by decide) (by decide)

/-! ## Brightness encoding -/

/-- C8: for every level in `0..=255`, `led_nu801_get_pwm_value level` is
`(level << 8) | level`, fits sixteen bits, and both its high byte and its low byte
are `level`. -/
theorem pwm_roundtrip (level : Nat) (h : level ≤ 255) :
    led_nu801_get_pwm_value level = (level <<< 8) ||| level
    ∧ led_nu801_get_pwm_value level < 65536
    ∧ led_nu801_get_pwm_value level >>> 8 = level
    ∧ led_nu801_get_pwm_value level &&& 255 = level := by
  have e := pwm_eq level (by omega)
  refine ⟨?_, ?_, ?_, ?_⟩
  · rw [e]
    have := @Nat.mul_add_lt_is_or 8 level (by norm_num; omega) level
    rw [Nat.shiftLeft_eq, Nat.mul_comm, ← this]
  · omega
  · rw [e, Nat.shiftRight_eq_div_pow]; norm_num; omega
  · rw [e]
    have := Nat.and_pow_two_sub_one_eq_mod (level * 256 + level) 8
    norm_num at this
    rw [this]; omega

theorem pwm_roundtrip_witness :
    led_nu801_get_pwm_value 171 = (171 <<< 8) ||| 171
    ∧ led_nu801_get_pwm_value 171 < 65536
    ∧ led_nu801_get_pwm_value 171 >>> 8 = 171
    ∧ led_nu801_get_pwm_value 171 &&& 255 = 171 :=
  pwm_roundtrip 171 (by decide)

/-! ## The shift loop -/

theorem and_mask (w k : Nat) : decide (w &&& 2 ^ k ≠ 0) = w.testBit k := by
  cases hb : w.testBit k with
  | true =>
    have : (w &&& 2 ^ k).testBit k = true := by
      rw [Nat.testBit_and, hb, Nat.testBit_two_pow_self]; rfl
    have hne : w &&& 2 ^ k ≠ 0 := by
      intro h0; rw [h0, Nat.zero_testBit] at this; exact Bool.noConfusion this
    simp [hne]
  | false =>
    have : w &&& 2 ^ k = 0 := by
      apply Nat.eq_of_testBit_eq
      intro i
      rw [Nat.testBit_and, Nat.testBit_two_pow, Nat.zero_testBit]
      by_cases hki : k = i
      · subst hki; simp [hb]
      · simp [hki]
    simp [this]

theorem bit_loop_zero (lei : Bool) (d w : Nat) (last : Bool) (fuel : Nat) :
    bit_loop lei d w last fuel 0 = [] := by
  cases fuel <;> simp [bit_loop]

theorem bits_down_succ (k : Nat) : bits_down (k + 1) = (k + 1) :: bits_down k := by
  unfold bits_down
  rw [List.range_succ, List.reverse_append]
  rfl

theorem bit_loop_succ (lei : Bool) (d w : Nat) (last : Bool) (fuel bit : Nat) (h : bit ≠ 0) :
    bit_loop lei d w last (fuel + 1) bit =
      [event.sdi (decide (w &&& bit ≠ 0)), event.cki true,
        (if last && decide (bit = 1) && !lei then event.udelay LATCH_DELAY_US
         else event.ndelay d),
        event.cki false, event.ndelay d]
        ++ bit_loop lei d w last fuel (u16 (bit >>> 1)) := by
  rw [bit_loop, if_neg h]

theorem bit_loop_pow (lei : Bool) (d w : Nat) (last : Bool) (k : Nat) :
    ∀ fuel, k < 16 → k < fuel →
      bit_loop lei d w last fuel (2 ^ k) = (bits_down k).flatMap (bit_events lei d w last) := by
  induction k with
  | zero =>
    intro fuel _ hf
    obtain ⟨f, rfl⟩ : ∃ f, fuel = f + 1 := ⟨fuel - 1, by omega⟩
    have h1 : u16 (2 ^ 0 >>> 1) = 0 := by decide
    rw [bit_loop_succ lei d w last f (2 ^ 0) (by decide), h1, bit_loop_zero, and_mask]
    rfl
  | succ k ih =>
    intro fuel hk hf
    obtain ⟨f, rfl⟩ : ∃ f, fuel = f + 1 := ⟨fuel - 1, by omega⟩
    have hpos : (2 : Nat) ^ (k + 1) ≠ 0 := by positivity
    have hne1 : (2 : Nat) ^ (k + 1) ≠ 1 := by
      have : 2 ≤ 2 ^ (k + 1) := by
        calc 2 = 2 ^ 1 := by norm_num
          _ ≤ 2 ^ (k + 1) := Nat.pow_le_pow_right (by norm_num) (by omega)
      omega
    have hlt : (2 : Nat) ^ k < 65536 := by
      calc (2 : Nat) ^ k < 2 ^ 16 := Nat.pow_lt_pow_right (by norm_num) (by omega)
        _ = 65536 := by norm_num
    have hsh : u16 (2 ^ (k + 1) >>> 1) = 2 ^ k := by
      unfold u16
      rw [Nat.shiftRight_eq_div_pow, pow_succ]
      simp
      omega
    rw [bits_down_succ, List.flatMap_cons, ← ih f (by omega) (by omega),
      bit_loop_succ lei d w last f (2 ^ (k + 1)) hpos, hsh, and_mask]
    have e1 : decide ((2 : Nat) ^ (k + 1) = 1) = false := by simp [hne1]
    have e2 : decide (k + 1 = 0) = false := by simp
    unfold bit_events
    rw [e1, e2]

theorem bit_loop_fuel (lei : Bool) (d w : Nat) (last : Bool) (k : Nat) :
    bit_loop lei d w last (16 + k) 32768 = bit_loop lei d w last 16 32768 := by
  have e : (32768 : Nat) = 2 ^ 15 := by norm_num
  rw [e, bit_loop_pow lei d w last 15 (16 + k) (by omega) (by omega),
    bit_loop_pow lei d w last 15 16 (by omega) (by omega)]

theorem bit_loop_word (lei : Bool) (d w : Nat) (last : Bool) :
    bit_loop lei d w last 16 32768 = (bits_down 15).flatMap (bit_events lei d w last) := by
  have e : (32768 : Nat) = 2 ^ 15 := by norm_num
  rw [e, bit_loop_pow lei d w last 15 16 (by omega) (by omega)]
/-! ### Observations on the events of one word -/

theorem sampled_bits_group (lei : Bool) (d w : Nat) (last : Bool) (js : List Nat) :
    ∀ (dat : Bool) (rest : List event), ∃ dat1,
      sampled_bits false dat (js.flatMap (bit_events lei d w last) ++ rest)
        = js.map (fun j => w.testBit j) ++ sampled_bits false dat1 rest := by
  induction js with
  | nil => intro dat rest; exact ⟨dat, rfl⟩
  | cons j js ih =>
    intro dat rest
    obtain ⟨dat1, h⟩ := ih (w.testBit j) rest
    refine ⟨dat1, ?_⟩
    rw [List.flatMap_cons, List.append_assoc, List.map_cons, List.cons_append, ← h]
    unfold bit_events
    split <;> simp [sampled_bits]

theorem clock_rises_append (a b : List event) :
    clock_rises (a ++ b) = clock_rises a + clock_rises b := by
  unfold clock_rises
  exact List.count_append _ _ _

theorem clock_rises_group (lei : Bool) (d w : Nat) (last : Bool) (js : List Nat) :
    clock_rises (js.flatMap (bit_events lei d w last)) = js.length := by
  induction js with
  | nil => rfl
  | cons j js ih =>
    rw [List.flatMap_cons, clock_rises_append, ih, List.length_cons]
    have : clock_rises (bit_events lei d w last j) = 1 := by
      unfold bit_events clock_rises
      split <;> simp
    omega

theorem well_clocked_group (lei : Bool) (d w : Nat) (last : Bool) (js : List Nat)
    (rest : List event) :
    well_clocked line_phase.low_idle (js.flatMap (bit_events lei d w last) ++ rest)
      = well_clocked line_phase.low_idle rest := by
  induction js with
  | nil => rfl
  | cons j js ih =>
    rw [List.flatMap_cons, List.append_assoc, ← ih]
    unfold bit_events
    split <;> simp [well_clocked]

theorem latch_writes_append (a b : List event) :
    latch_writes (a ++ b) = latch_writes a ++ latch_writes b := by
  unfold latch_writes
  exact List.filter_append _ _

theorem latch_writes_group (lei : Bool) (d w : Nat) (last : Bool) (js : List Nat) :
    latch_writes (js.flatMap (bit_events lei d w last)) = [] := by
  induction js with
  | nil => rfl
  | cons j js ih =>
    rw [List.flatMap_cons, latch_writes_append, ih]
    unfold bit_events latch_writes
    split <;> simp

theorem word_bits_eq (w : Nat) : word_bits w = (bits_down 15).map (fun j => w.testBit j) := rfl

theorem drop_getD (cd : List Nat) (index : Nat) (h : index < cd.length) :
    cd.drop index = cd.getD index 0 :: cd.drop (index + 1) := by
  rw [List.drop_eq_getElem_cons h]
  congr 1
  simp [List.getD, List.getElem?_eq_getElem h]

theorem sampled_bits_word_loop (lei : Bool) (d : Nat) (cd : List Nat) (N : Nat) :
    ∀ (todo index : Nat) (dat : Bool) (rest : List event), index + todo = cd.length →
      ∃ dat1, sampled_bits false dat (word_loop lei d cd N todo index ++ rest)
        = chain_bits (cd.drop index) ++ sampled_bits false dat1 rest := by
  intro todo
  induction todo with
  | zero =>
    intro index dat rest h
    refine ⟨dat, ?_⟩
    have : cd.drop index = [] := List.drop_eq_nil_of_le (by omega)
    rw [this]; rfl
  | succ todo ih =>
    intro index dat rest h
    rw [word_loop, bit_loop_word, List.append_assoc]
    obtain ⟨dat1, h1⟩ := sampled_bits_group lei d (cd.getD index 0)
      (decide (index = u32 ((N : Int) - 1))) (bits_down 15) dat
      (word_loop lei d cd N todo (index + 1) ++ rest)
    obtain ⟨dat2, h2⟩ := ih (index + 1) dat1 rest (by omega)
    refine ⟨dat2, ?_⟩
    rw [h1, h2, drop_getD cd index (by omega)]
    unfold chain_bits
    rw [List.flatMap_cons, word_bits_eq, List.append_assoc]

theorem clock_rises_word_loop (lei : Bool) (d : Nat) (cd : List Nat) (N : Nat) :
    ∀ (todo index : Nat), clock_rises (word_loop lei d cd N todo index) = 16 * todo := by
  intro todo
  induction todo with
  | zero => intro index; rfl
  | succ todo ih =>
    intro index
    rw [word_loop, bit_loop_word, clock_rises_append, clock_rises_group, ih]
    have : (bits_down 15).length = 16 := rfl
    omega

theorem well_clocked_word_loop (lei : Bool) (d : Nat) (cd : List Nat) (N : Nat) :
    ∀ (todo index : Nat) (rest : List event),
      well_clocked line_phase.low_idle (word_loop lei d cd N todo index ++ rest)
        = well_clocked line_phase.low_idle rest := by
  intro todo
  induction todo with
  | zero => intro index rest; rfl
  | succ todo ih =>
    intro index rest
    rw [word_loop, bit_loop_word, List.append_assoc, well_clocked_group, ih]

theorem latch_writes_word_loop (lei : Bool) (d : Nat) (cd : List Nat) (N : Nat) :
    ∀ (todo index : Nat), latch_writes (word_loop lei d cd N todo index) = [] := by
  intro todo
  induction todo with
  | zero => intro index; rfl
  | succ todo ih =>
    intro index
    rw [word_loop, bit_loop_word, latch_writes_append, latch_writes_group, ih]
    rfl

theorem word_loop_suffix (lei : Bool) (d : Nat) (cd : List Nat) (N : Nat) :
    ∀ (todo index : Nat), ∃ pre,
      word_loop lei d cd N (todo + 1) index = pre ++ [event.cki false, event.ndelay d] := by
  intro todo
  induction todo with
  | zero =>
    intro index
    rw [word_loop, bit_loop_word]
    have e : bits_down 15 = [15, 14, 13, 12, 11, 10, 9, 8, 7, 6, 5, 4, 3, 2, 1] ++ [0] := rfl
    have e0 : ∀ w last, List.flatMap [0] (bit_events lei d w last)
        = [event.sdi (w.testBit 0), event.cki true,
            (if last && decide (0 = 0) && !lei then event.udelay LATCH_DELAY_US
              else event.ndelay d)] ++ [event.cki false, event.ndelay d] := by
      intro w last; simp [bit_events]
    rw [e, List.flatMap_append, e0, word_loop, List.append_nil, ← List.append_assoc]
    exact ⟨_, rfl⟩
  | succ todo ih =>
    intro index
    obtain ⟨pre, h⟩ := ih (index + 1)
    rw [word_loop, h]
    exact ⟨_, (List.append_assoc _ _ _).symm⟩
/-! ### The whole transmission -/

theorem sampled_bits_lock (clk dat : Bool) (t : List event) :
    sampled_bits clk dat (event.mutex_lock :: t) = sampled_bits clk dat t := by
  simp [sampled_bits]

theorem well_clocked_lock (ph : line_phase) (t : List event) :
    well_clocked ph (event.mutex_lock :: t) = well_clocked ph t := by
  simp [well_clocked]

theorem u32_num_leds (controller : led_nu801_data) (n : Nat)
    (hnum : controller.num_leds = (n : Int)) (hint : n < 2147483648) :
    u32 controller.num_leds = n := by
  rw [hnum]; exact u32_of_nat n (by omega)

/-- C2: for every buffer of `n` words (`n` within the range of the `int` field
`num_leds`), one run of `led_nu801_work` raises the clock line exactly `16 * n` times;
the data-line values present at the successive rising edges are the bits of word 0,
word 1, ..., word `n - 1`, each most significant bit first; and the line writes are
ordered: data is written only while the clock is low, each rise follows a data write
made since the previous fall, and each rise is followed by a fall before the next data
write (the run ends with the clock low). -/
theorem work_clocking (controller : led_nu801_data) (n : Nat)
    (hlen : controller.chain_data.length = n) (hnum : controller.num_leds = (n : Int))
    (hint : n < 2147483648) :
    clock_rises (led_nu801_work controller).1 = 16 * n
    ∧ sampled_bits false false (led_nu801_work controller).1 = chain_bits controller.chain_data
    ∧ well_clocked line_phase.low_idle (led_nu801_work controller).1 = true := by
  have hu := u32_num_leds controller n hnum hint
  unfold led_nu801_work led_nu801_work_shift led_nu801_work_finish
  rw [hu]
  refine ⟨?_, ?_, ?_⟩
  · rw [clock_rises_append, clock_rises_append, clock_rises_append, clock_rises_word_loop]
    cases controller.lei <;> simp [clock_rises]
  · obtain ⟨dat1, h⟩ := sampled_bits_word_loop controller.lei controller.clock_delay_ns
      controller.chain_data n n 0 false
      ([event.mutex_unlock] ++ (if controller.lei then
        [event.lei true, event.ndelay controller.clock_delay_ns, event.lei false] else []))
      (by omega)
    rw [List.append_assoc, List.append_assoc, List.singleton_append, sampled_bits_lock, h,
      List.drop_zero]
    cases controller.lei <;> simp [sampled_bits]
  · rw [List.append_assoc, List.append_assoc, List.singleton_append, well_clocked_lock,
      well_clocked_word_loop]
    cases controller.lei <;> simp [well_clocked]

theorem work_clocking_witness :
    clock_rises (led_nu801_work example_latched).1 = 16 * 2
    ∧ sampled_bits false false (led_nu801_work example_latched).1
        = chain_bits example_latched.chain_data
    ∧ well_clocked line_phase.low_idle (led_nu801_work example_latched).1 = true :=
  work_clocking example_latched 2 rfl rfl (by decide)

/-! ## Scheduler: interleavings of brightness-set calls and the worker -/

/-- C4: a lost update.  From the state after construction the initial transmission runs
to completion, leaving the controller idle with the wire equal to the buffer.  Then
LED 0 is set to 255 (which schedules a transmission), the worker starts and shifts the
buffer out, LED 1 is set to 255 before the worker executes `atomic_set(&pending, 1)`
(the decrement takes `pending` from 0 to -1, so nothing is scheduled), and the worker
finishes.  In the final state nothing is scheduled or running, `pending` is 1, the wire
holds `[65535, 0, 0]` and the buffer holds `[65535, 65535, 0]`. -/
theorem lost_update_run :
    (example_created.bind (fun s =>
        run s [action.work_start, action.work_shift, action.work_finish])).map
      (fun s => (in_flight s, s.controller.pending, wire_words s.wire, s.controller.chain_data))
      = some (0, 1, [0, 0, 0], [0, 0, 0])
    ∧ (example_created.bind (fun s =>
        run s [action.work_start, action.work_shift, action.work_finish,
               action.set 0 255, action.work_start, action.work_shift,
               action.set 1 255, action.work_finish])).map
      (fun s => (in_flight s, s.controller.pending, wire_words s.wire, s.controller.chain_data))
      = some (0, 1, [65535, 0, 0], [65535, 65535, 0]) := by
  decide

/-- C5: two transmissions in flight.  `led_nu801_create_chain` leaves `pending = 1` with
the initial transmission queued; once the worker has started it, a level-changing
`led_nu801_set` decrements `pending` to 0 and queues the work again, so one
transmission is running and another is queued. -/
theorem double_schedule_run :
    example_created.map (fun s => (s.controller.pending, in_flight s)) = some (1, 1)
    ∧ (example_created.bind (fun s => run s [action.work_start, action.set 0 255])).map
        (fun s => (s.controller.pending, s.controller.work.queued, s.pc, in_flight s))
      = some (0, true, worker_pc.shifting, 2) := by
  decide

/-! ## Brightness-set return value -/

/-- C9 (as stated, refuted): `led_nu801_set` on an LED record whose `registered` flag is
false returns 0 and performs the update. -/
theorem set_unregistered_accepted :
    example_unregistered.led_chain.map (fun l => l.registered) = [false]
    ∧ (led_nu801_set example_unregistered 0 255).1 = 0
    ∧ (led_nu801_set example_unregistered 0 255).2.chain_data = [65535]
    ∧ (led_nu801_set example_unregistered 0 255).2.work.queued = true := by
  decide

/-- C9 (amended): `led_nu801_set` returns success (0) for every controller state, every
LED record, registered or not, and every level; it never rejects a call. -/
theorem set_never_rejects (controller : led_nu801_data) (led value : Nat) :
    (led_nu801_set controller led value).1 = 0 := by
  unfold led_nu801_set
  split
  · rfl
  · split
    · dsimp only
      split <;> rfl
    · rfl

/-! ## Range checks of the parser -/

/-- C10: the range checks compare as signed `int`.  A channel `reg` of `0xFFFFFFFF`
reads as `-1`, passes `chan_index >= NUM_CHANNELS` and is stored through
`channels[-1]`; a chip `reg` of `0xFFFFFFFF` passes `chip_index >= num_chips` and is
stored through `chips[-1]`.  A value from the bound up to `0x7FFFFFFF` (here 3 for the
channel, 1 for the chip of a one-chip chain) is rejected with `-EINVAL` and nothing is
stored. -/
theorem parse_reg_sign_slip :
    leds_nu801_parse_channel zero_chip
        { available := true, reg := of_read.ok 4294967295, default_state := of_read.ok "on" }
      = outcome.oob (-1)
    ∧ leds_nu801_parse_chip example_parsed
        { reg := of_read.ok 4294967295,
          children := [{ available := true, reg := of_read.ok 0,
                         default_state := of_read.ok "on" }] }
      = outcome.oob (-1)
    ∧ leds_nu801_parse_channel zero_chip
        { available := true, reg := of_read.ok 3, default_state := of_read.ok "on" }
      = outcome.ret (-EINVAL) zero_chip
    ∧ leds_nu801_parse_chip example_parsed
        { reg := of_read.ok 1,
          children := [{ available := true, reg := of_read.ok 0,
                         default_state := of_read.ok "on" }] }
      = outcome.ret (-EINVAL) example_parsed := by
  decide

/-! ## Chain construction -/

theorem slot_nat {α : Type} (l : List α) (n : Nat) : slot l (n : Int) = l[n]? := by
  unfold slot
  simp

theorem create_dup (k : kernel) (c : led_nu801_data) (d : device) (n : Nat)
    (ch : led_nu801_channel) (led : led_nu801_led_data)
    (hled : c.led_chain[n]? = some led) (hr : led.registered = true) :
    led_nu801_create k c d (n : Int) ch = outcome.ret (-EEXIST) (c, d) := by
  unfold led_nu801_create
  rw [slot_nat, hled]
  simp [hr]

theorem create_ok (k : kernel) (c : led_nu801_data) (d : device) (n : Nat)
    (ch : led_nu801_channel) (led : led_nu801_led_data)
    (hled : c.led_chain[n]? = some led) (hr : led.registered = false)
    (hn : n < c.chain_data.length) (hn2 : n < 4294967296)
    (hreg : 0 ≤ k.classdev_register n) :
    led_nu801_create k c d (n : Int) ch =
      outcome.ret 0
        ({ c with
            led_chain := c.led_chain.set n
              { led with level := ch.init_brightness, index := n, registered := true },
            chain_data := c.chain_data.set n (led_nu801_get_pwm_value ch.init_brightness) },
         { d with classdevs := d.classdevs ++ [n] }) := by
  unfold led_nu801_create
  rw [slot_nat, hled]
  have hu : u32 (n : Int) = n := u32_of_nat n hn2
  have hs : slot c.chain_data ((n : Nat) : Int) = some (c.chain_data[n]) := by
    rw [slot_nat, List.getElem?_eq_getElem hn]
  simp only [hr, hu, hs, Int.toNat_ofNat, List.set_set]
  simp [not_lt.mpr hreg]

theorem create_frame (k : kernel) (c : led_nu801_data) (d : device) (i : Int)
    (ch : led_nu801_channel) (code : Int) (c1 : led_nu801_data) (d1 : device)
    (h : led_nu801_create k c d i ch = outcome.ret code (c1, d1)) :
    c1.chips = c.chips ∧ c1.work = c.work ∧ c1.pending = c.pending
    ∧ c1.num_chips = c.num_chips ∧ c1.num_leds = c.num_leds
    ∧ c1.lei = c.lei ∧ c1.clock_delay_ns = c.clock_delay_ns
    ∧ c1.led_chain.length = c.led_chain.length
    ∧ c1.chain_data.length = c.chain_data.length := by
  unfold led_nu801_create at h
  split at h
  · exact outcome.noConfusion h
  · split at h
    · injection h with _ h2
      injection h2 with h3 _
      subst h3
      simp
    · dsimp only at h
      split at h
      · exact outcome.noConfusion h
      · split at h
        · injection h with _ h2
          injection h2 with h3 _
          subst h3
          simp
        · injection h with _ h2
          injection h2 with h3 _
          subst h3
          simp
theorem create_all_frame (k : kernel) :
    ∀ (jobs : List (Int × led_nu801_channel)) (c : led_nu801_data) (d : device) (code : Int)
      (c1 : led_nu801_data) (d1 : device),
      create_all k jobs c d = outcome.ret code (c1, d1) →
      c1.chips = c.chips ∧ c1.work = c.work ∧ c1.pending = c.pending
      ∧ c1.num_chips = c.num_chips ∧ c1.num_leds = c.num_leds
      ∧ c1.lei = c.lei ∧ c1.clock_delay_ns = c.clock_delay_ns
      ∧ c1.led_chain.length = c.led_chain.length
      ∧ c1.chain_data.length = c.chain_data.length := by
  intro jobs
  induction jobs with
  | nil =>
    intro c d code c1 d1 h
    unfold create_all at h
    injection h with _ h2
    injection h2 with h3 _
    subst h3
    simp
  | cons job rest ih =>
    intro c d code c1 d1 h
    obtain ⟨i, ch⟩ := job
    unfold create_all at h
    cases hc : led_nu801_create k c d i ch with
    | oob s => rw [hc] at h; exact outcome.noConfusion h
    | ret code2 s =>
      obtain ⟨c2, d2⟩ := s
      rw [hc] at h
      have f := create_frame k c d i ch code2 c2 d2 hc
      dsimp only at h
      split at h
      · injection h with _ h2
        injection h2 with h3 _
        subst h3
        exact f
      · have g := ih c2 d2 code c1 d1 h
        obtain ⟨f1, f2, f3, f4, f5, f6, f7, f8, f9⟩ := f
        obtain ⟨g1, g2, g3, g4, g5, g6, g7, g8, g9⟩ := g
        exact ⟨g1.trans f1, g2.trans f2, g3.trans f3, g4.trans f4, g5.trans f5,
          g6.trans f6, g7.trans f7, g8.trans f8, g9.trans f9⟩

theorem create_all_cons (k : kernel) (i : Int) (ch : led_nu801_channel)
    (rest : List (Int × led_nu801_channel)) (c : led_nu801_data) (d : device) :
    create_all k ((i, ch) :: rest) c d =
      match led_nu801_create k c d i ch with
      | outcome.oob s => outcome.oob s
      | outcome.ret code (c1, d1) =>
        if code < 0 then outcome.ret code (c1, d1) else create_all k rest c1 d1 := by
  rw [create_all]

theorem create_all_append (k : kernel) :
    ∀ (l1 l2 : List (Int × led_nu801_channel)) (c : led_nu801_data) (d : device),
      create_all k (l1 ++ l2) c d =
        match create_all k l1 c d with
        | outcome.oob s => outcome.oob s
        | outcome.ret code (c1, d1) =>
          if code < 0 then outcome.ret code (c1, d1) else create_all k l2 c1 d1 := by
  intro l1
  induction l1 with
  | nil => intro l2 c d; simp [create_all]
  | cons job rest ih =>
    intro l2 c d
    obtain ⟨i, ch⟩ := job
    rw [List.cons_append, create_all_cons, create_all_cons]
    cases hc : led_nu801_create k c d i ch with
    | oob s => rfl
    | ret code s =>
      obtain ⟨c2, d2⟩ := s
      dsimp only
      split
      · simp [*]
      · exact ih l2 c2 d2

theorem chan_loop_eq (k : kernel) (led_chip : led_nu801_chip) (idx : Int) :
    ∀ (todo chan : Nat) (c : led_nu801_data) (d : device),
      chan + todo = led_chip.channels.length →
      create_chan_loop k led_chip idx todo chan c d =
        create_all k ((led_chip.channels.drop chan).map
          (fun ch => (chan_index idx ch.index, ch))) c d := by
  intro todo
  induction todo with
  | zero =>
    intro chan c d h
    have : led_chip.channels.drop chan = [] := List.drop_eq_nil_of_le (by omega)
    rw [this]
    rfl
  | succ todo ih =>
    intro chan c d h
    have hlt : chan < led_chip.channels.length := by omega
    rw [List.drop_eq_getElem_cons hlt, List.map_cons]
    rw [create_chan_loop, create_all_cons, List.getElem?_eq_getElem hlt]
    dsimp only
    cases hc : led_nu801_create k c d (chan_index idx led_chip.channels[chan].index)
        led_chip.channels[chan] with
    | oob s => rfl
    | ret code s =>
      obtain ⟨c2, d2⟩ := s
      dsimp only
      split
      · rfl
      · exact ih (chan + 1) c2 d2 (by omega)

theorem chip_loop_eq (k : kernel) (C : Int) :
    ∀ (todo chip : Nat) (c : led_nu801_data) (d : device),
      chip + todo = c.chips.length →
      (∀ x ∈ c.chips, x.channels.length = NUM_CHANNELS) →
      create_chip_loop k C todo chip c d = create_all k (chain_jobs C (c.chips.drop chip)) c d := by
  intro todo
  induction todo with
  | zero =>
    intro chip c d h _
    have : c.chips.drop chip = [] := List.drop_eq_nil_of_le (by omega)
    rw [this]
    rfl
  | succ todo ih =>
    intro chip c d h hw
    have hlt : chip < c.chips.length := by omega
    rw [List.drop_eq_getElem_cons hlt]
    rw [create_chip_loop]
    unfold chain_jobs
    rw [List.getElem?_eq_getElem hlt, List.flatMap_cons, create_all_append]
    dsimp only
    have hch : (c.chips[chip]).channels.length = NUM_CHANNELS :=
      hw _ (List.getElem_mem hlt)
    rw [chan_loop_eq k (c.chips[chip]) _ NUM_CHANNELS 0 c d (by omega), List.drop_zero]
    unfold chip_jobs
    cases hc : create_all k ((c.chips[chip]).channels.map
        (fun ch => (chan_index (chip_index C (c.chips[chip]).index) ch.index, ch))) c d with
    | oob s => rfl
    | ret code s =>
      obtain ⟨c2, d2⟩ := s
      dsimp only
      split
      · rfl
      · have f := create_all_frame k _ c d code c2 d2 hc
        have e := ih (chip + 1) c2 d2 (by rw [f.1]; omega) (by rw [f.1]; exact hw)
        rw [e, f.1]
        rfl
theorem create_all_nodup (k : kernel) (hreg : ∀ i, 0 ≤ k.classdev_register i) (L : Nat)
    (hL : L < 4294967296) :
    ∀ (jobs : List (Int × led_nu801_channel)) (c : led_nu801_data) (d : device),
      c.led_chain.length = L → c.chain_data.length = L →
      (∀ job ∈ jobs, 0 ≤ job.1 ∧ job.1 < (L : Int)) →
      (jobs.map Prod.fst).Nodup →
      (∀ job ∈ jobs, ∀ led, c.led_chain[job.1.toNat]? = some led → led.registered = false) →
      ∃ c1 d1, create_all k jobs c d = outcome.ret 0 (c1, d1)
        ∧ d1.classdevs = d.classdevs ++ jobs.map (fun job => job.1.toNat)
        ∧ (∀ job ∈ jobs,
            c1.chain_data[job.1.toNat]? = some (led_nu801_get_pwm_value job.2.init_brightness)
            ∧ ∃ led, c1.led_chain[job.1.toNat]? = some led ∧ led.registered = true
                ∧ led.index = job.1.toNat ∧ led.level = job.2.init_brightness)
        ∧ (∀ m : Nat, (m : Int) ∉ jobs.map Prod.fst →
            c1.led_chain[m]? = c.led_chain[m]? ∧ c1.chain_data[m]? = c.chain_data[m]?) := by
  intro jobs
  induction jobs with
  | nil =>
    intro c d _ _ _ _ _
    exact ⟨c, d, rfl, by simp, by simp, by simp⟩
  | cons job rest ih =>
    intro c d hl1 hl2 hr hnd hun
    obtain ⟨i, ch⟩ := job
    have hi := hr (i, ch) (List.mem_cons_self _ _)
    dsimp only at hi
    obtain ⟨n, rfl⟩ : ∃ n : Nat, i = (n : Int) := ⟨i.toNat, by omega⟩
    have hn : n < L := by omega
    have hled : c.led_chain[n]? = some (c.led_chain[n]) :=
      List.getElem?_eq_getElem (by omega)
    have hreg1 : (c.led_chain[n]).registered = false :=
      hun (n, ch) (List.mem_cons_self _ _) _ (by simp)
    rw [List.map_cons, List.nodup_cons] at hnd
    obtain ⟨hnot, hnd2⟩ := hnd
    rw [create_all_cons, create_ok k c d n ch _ hled hreg1 (by omega) (by omega) (hreg n)]
    dsimp only
    rw [if_neg (by decide)]
    have hne : ∀ job ∈ rest, n ≠ job.1.toNat := by
      intro job hj e
      have hjr := hr job (List.mem_cons_of_mem _ hj)
      apply hnot
      refine List.mem_map.mpr ⟨job, hj, ?_⟩
      omega
    obtain ⟨c1, d1, hrun, hdev, hjobs, hrest⟩ := ih
      { c with
          led_chain := c.led_chain.set n
            { c.led_chain[n] with level := ch.init_brightness, index := n, registered := true },
          chain_data := c.chain_data.set n (led_nu801_get_pwm_value ch.init_brightness) }
      { d with classdevs := d.classdevs ++ [n] }
      (by simp [hl1]) (by simp [hl2])
      (fun job hj => hr job (List.mem_cons_of_mem _ hj)) hnd2
      (by
        intro job hj led hled2
        dsimp only at hled2
        rw [List.getElem?_set_ne (hne job hj)] at hled2
        exact hun job (List.mem_cons_of_mem _ hj) led hled2)
    refine ⟨c1, d1, hrun, ?_, ?_, ?_⟩
    · rw [hdev]; simp
    · intro job hj
      rcases List.mem_cons.mp hj with rfl | hj
      · obtain ⟨h1, h2⟩ := hrest n hnot
        dsimp only at h1 h2 ⊢
        rw [Int.toNat_ofNat, h1, h2, List.getElem?_set_self (by omega),
          List.getElem?_set_self (by omega)]
        exact ⟨rfl, _, rfl, rfl, rfl, rfl⟩
      · exact hjobs job hj
    · intro m hm
      rw [List.map_cons, List.mem_cons, not_or] at hm
      obtain ⟨hm1, hm2⟩ := hm
      obtain ⟨h1, h2⟩ := hrest m hm2
      have hmn : n ≠ m := by
        intro e; apply hm1; rw [e]
      dsimp only at h1 h2
      rw [h1, h2, List.getElem?_set_ne hmn, List.getElem?_set_ne hmn]
      exact ⟨rfl, rfl⟩
theorem create_chain_eq (k : kernel) (controller : led_nu801_data) (dev : device)
    (h1 : k.kcalloc_led_chain = true) (h2 : k.kcalloc_chain_data = true)
    (hlen : controller.chips.length = controller.num_chips.toNat)
    (hw : ∀ x ∈ controller.chips, x.channels.length = NUM_CHANNELS) :
    led_nu801_create_chain k controller dev =
      match create_all k (chain_jobs controller.num_chips controller.chips)
          (fresh_chain controller) dev with
      | outcome.oob s => outcome.oob s
      | outcome.ret code (c, d) =>
        if code < 0 then outcome.ret code (c, d)
        else outcome.ret 0 ({ c with work := schedule_delayed_work c.work }, d) := by
  have e := chip_loop_eq k controller.num_chips controller.num_chips.toNat 0
    (fresh_chain controller) dev (by simp [fresh_chain, hlen]) hw
  rw [List.drop_zero] at e
  unfold led_nu801_create_chain
  simp only [h1, h2, Bool.not_true, Bool.false_eq_true, if_false]
  unfold fresh_chain at e ⊢
  rw [e]

theorem chain_jobs_fst (C : Int) (chips : List led_nu801_chip) :
    (chain_jobs C chips).map Prod.fst =
      chips.flatMap (fun chip =>
        chip.channels.map (fun ch => physical_index C chip.index ch.index)) := by
  unfold chain_jobs chip_jobs physical_index
  rw [List.map_flatMap]
  simp [List.map_map, Function.comp_def]

theorem mem_chain_jobs (C : Int) (chips : List led_nu801_chip) (job : Int × led_nu801_channel)
    (h : job ∈ chain_jobs C chips) :
    ∃ chip ∈ chips, ∃ ch ∈ chip.channels,
      job = (physical_index C chip.index ch.index, ch) := by
  unfold chain_jobs chip_jobs at h
  obtain ⟨chip, hc, hj⟩ := List.mem_flatMap.mp h
  obtain ⟨ch, hch, e⟩ := List.mem_map.mp hj
  exact ⟨chip, hc, ch, hch, e.symm⟩

theorem jobs_in_range (C : Nat) (hrange : 3 * C < 2147483648) (chips : List led_nu801_chip)
    (hwf : ∀ chip ∈ chips, chip.index < C ∧ chip.channels.length = NUM_CHANNELS
      ∧ ∀ ch ∈ chip.channels, ch.index < NUM_CHANNELS) :
    ∀ job ∈ chain_jobs (C : Int) chips, 0 ≤ job.1 ∧ job.1 < ((3 * C : Nat) : Int) := by
  intro job hj
  obtain ⟨chip, hc, ch, hch, rfl⟩ := mem_chain_jobs _ _ _ hj
  obtain ⟨h1, _, h3⟩ := hwf chip hc
  have h4 := h3 ch hch
  unfold NUM_CHANNELS at h4
  have e := physical_index_eq (C : Int) chip.index ch.index (by omega) (by omega) h4
  dsimp only
  rw [e]
  omega

theorem fresh_chain_unregistered (controller : led_nu801_data) (n : Nat)
    (led : led_nu801_led_data) (h : (fresh_chain controller).led_chain[n]? = some led) :
    led.registered = false := by
  unfold fresh_chain at h
  dsimp only at h
  obtain ⟨_, h2⟩ := List.getElem?_eq_some_iff.mp h
  rw [List.getElem_replicate] at h2
  rw [← h2]
  rfl

theorem physical_index_inj (C : Nat) (hrange : 3 * C < 2147483648) (p c p1 c1 : Nat)
    (hp : p < C) (hc : c < 3) (hp1 : p1 < C) (hc1 : c1 < 3)
    (h : physical_index (C : Int) p c = physical_index (C : Int) p1 c1) : p = p1 ∧ c = c1 := by
  rw [physical_index_eq (C : Int) p c (by omega) (by omega) hc,
    physical_index_eq (C : Int) p1 c1 (by omega) (by omega) hc1] at h
  omega

theorem physical_index_surj (C : Nat) (hrange : 3 * C < 2147483648) (i : Nat) (hi : i < 3 * C) :
    ∃ p c, p < C ∧ c < 3 ∧ physical_index (C : Int) p c = (i : Int) := by
  refine ⟨C - 1 - i / 3, 2 - i % 3, by omega, by omega, ?_⟩
  rw [physical_index_eq (C : Int) _ _ (by omega) (by omega) (by omega)]
  omega

theorem physical_index_nat (C : Nat) (hrange : 3 * C < 2147483648) (p c : Nat)
    (hp : p < C) (hc : c < 3) :
    physical_index (C : Int) p c = ((3 * (C - p - 1) + (2 - c) : Nat) : Int) := by
  rw [physical_index_eq (C : Int) p c (by omega) (by omega) hc]
  omega

theorem chain_jobs_length (C : Int) (chips : List led_nu801_chip)
    (hw : ∀ x ∈ chips, x.channels.length = NUM_CHANNELS) :
    (chain_jobs C chips).length = 3 * chips.length := by
  induction chips with
  | nil => rfl
  | cons x rest ih =>
    unfold chain_jobs at ih ⊢
    rw [List.flatMap_cons, List.length_append, ih (fun y hy => hw y (List.mem_cons_of_mem _ hy))]
    have := hw x (List.mem_cons_self _ _)
    unfold NUM_CHANNELS at this
    simp [chip_jobs, this]
    omega

theorem channel_at (chip : led_nu801_chip) (c : Nat) (ch : led_nu801_channel)
    (hmap : chip.channels.map (fun ch => ch.index) = [0, 1, 2])
    (h : chip.channels[c]? = some ch) : ch.index = c ∧ c < 3 := by
  have h2 : (chip.channels.map (fun ch => ch.index))[c]? = some ch.index := by
    rw [List.getElem?_map, h]; rfl
  rw [hmap] at h2
  match c, h2 with
  | 0, h2 => simp at h2; exact ⟨h2.symm, by omega⟩
  | 1, h2 => simp at h2; exact ⟨h2.symm, by omega⟩
  | 2, h2 => simp at h2; exact ⟨h2.symm, by omega⟩
  | n + 3, h2 => simp at h2

theorem full_wf (C : Nat) (chips : List led_nu801_chip) (hlen : chips.length = C)
    (hfull : ∀ p, p < C → ∃ chip, chips[p]? = some chip ∧ chip.index = p
      ∧ chip.channels.map (fun ch => ch.index) = [0, 1, 2]) :
    ∀ chip ∈ chips, chip.index < C ∧ chip.channels.length = NUM_CHANNELS
      ∧ ∀ ch ∈ chip.channels, ch.index < NUM_CHANNELS := by
  intro chip hc
  obtain ⟨p, hp⟩ := List.mem_iff_getElem?.mp hc
  obtain ⟨hp1, _⟩ := List.getElem?_eq_some_iff.mp hp
  obtain ⟨chip1, h1, h2, h3⟩ := hfull p (by omega)
  rw [hp] at h1
  injection h1 with h1
  subst h1
  refine ⟨by omega, ?_, ?_⟩
  · have := congrArg List.length h3
    simpa [NUM_CHANNELS] using this
  · intro ch hch
    obtain ⟨c, hcc⟩ := List.mem_iff_getElem?.mp hch
    have := channel_at chip c ch h3 hcc
    unfold NUM_CHANNELS
    omega

theorem full_nodup (C : Nat) (hrange : 3 * C < 2147483648) (chips : List led_nu801_chip)
    (hlen : chips.length = C)
    (hfull : ∀ p, p < C → ∃ chip, chips[p]? = some chip ∧ chip.index = p
      ∧ chip.channels.map (fun ch => ch.index) = [0, 1, 2]) :
    ((chain_jobs (C : Int) chips).map Prod.fst).Nodup := by
  have key : ∀ p (hp : p < chips.length), (chips[p]).index = p
      ∧ (chips[p]).channels.map (fun ch => ch.index) = [0, 1, 2] := by
    intro p hp
    obtain ⟨chip, h1, h2, h3⟩ := hfull p (by omega)
    rw [List.getElem?_eq_getElem hp] at h1
    injection h1 with h1
    rw [h1]
    exact ⟨h2, h3⟩
  have vals : ∀ p (hp : p < chips.length) v,
      v ∈ (chips[p]).channels.map (fun ch => physical_index (C : Int) (chips[p]).index ch.index) →
      ∃ c, c < 3 ∧ v = physical_index (C : Int) p c := by
    intro p hp v hv
    obtain ⟨ch, hch, rfl⟩ := List.mem_map.mp hv
    obtain ⟨c, hcc⟩ := List.mem_iff_getElem?.mp hch
    obtain ⟨e1, e2⟩ := channel_at _ c ch (key p hp).2 hcc
    exact ⟨c, e2, by rw [(key p hp).1, e1]⟩
  rw [chain_jobs_fst, List.nodup_flatMap]
  constructor
  · intro chip hc
    obtain ⟨p, hp⟩ := List.mem_iff_getElem?.mp hc
    obtain ⟨hp1, hp2⟩ := List.getElem?_eq_some_iff.mp hp
    subst hp2
    obtain ⟨k1, k2⟩ := key p hp1
    have e : (chips[p]).channels.map (fun ch => physical_index (C : Int) (chips[p]).index ch.index)
        = ((chips[p]).channels.map (fun ch => ch.index)).map
            (fun c => physical_index (C : Int) (chips[p]).index c) := by
      rw [List.map_map]; rfl
    rw [e, k2, k1]
    have i01 := physical_index_inj C hrange p 0 p 1 (by omega) (by omega) (by omega) (by omega)
    have i02 := physical_index_inj C hrange p 0 p 2 (by omega) (by omega) (by omega) (by omega)
    have i12 := physical_index_inj C hrange p 1 p 2 (by omega) (by omega) (by omega) (by omega)
    simp only [List.map_cons, List.map_nil, List.nodup_cons, List.mem_cons, List.mem_singleton,
      List.not_mem_nil, not_or, not_false_eq_true, List.nodup_nil, and_true]
    refine ⟨⟨?_, ?_⟩, ?_⟩
    · intro h; have := (i01 h).2; omega
    · intro h; have := (i02 h).2; omega
    · intro h; have := (i12 h).2; omega
  · rw [List.pairwise_iff_getElem]
    intro i j hi hj hij v hv1 hv2
    obtain ⟨c, hc, e1⟩ := vals i hi v hv1
    obtain ⟨c1, hc1, e2⟩ := vals j hj v hv2
    have := physical_index_inj C hrange i c j c1 (by omega) hc (by omega) hc1 (e1 ▸ e2)
    omega
theorem job_mem (C : Int) (chips : List led_nu801_chip) (p c : Nat) (chip : led_nu801_chip)
    (ch : led_nu801_channel) (hp : chips[p]? = some chip) (hc : chip.channels[c]? = some ch) :
    (physical_index C chip.index ch.index, ch) ∈ chain_jobs C chips := by
  unfold chain_jobs chip_jobs
  exact List.mem_flatMap.mpr ⟨chip, List.getElem?_mem hp,
    List.mem_map.mpr ⟨ch, List.getElem?_mem hc, rfl⟩⟩

/-- C7: the index map is a bijection from `{0..C-1} × {0,1,2}` onto `{0..3*C-1}`, and for
every fully populated chain (slot `p` of `chips` holds the chip with `index = p`, whose
three channel slots have `index` 0, 1, 2), when both allocations and every registration
succeed, `led_nu801_create_chain` returns 0, registers each of the `3 * C` LEDs exactly
once, leaves every LED record registered with its own buffer index, leaves the buffer
word at index `3 * (C - p - 1) + (2 - c)` equal to the encoding of the initial level of
channel `(p, c)`, and queues the initial transmission. -/
theorem full_chain_created (k : kernel) (controller : led_nu801_data) (dev : device) (C : Nat)
    (hrange : 3 * C < 2147483648)
    (hnc : controller.num_chips = (C : Int)) (hnl : controller.num_leds = ((3 * C : Nat) : Int))
    (hlen : controller.chips.length = C)
    (hfull : ∀ p, p < C → ∃ chip, controller.chips[p]? = some chip ∧ chip.index = p
      ∧ chip.channels.map (fun ch => ch.index) = [0, 1, 2])
    (hreg : ∀ i, 0 ≤ k.classdev_register i)
    (h1 : k.kcalloc_led_chain = true) (h2 : k.kcalloc_chain_data = true) :
    (∀ p c p1 c1 : Nat, p < C → c < 3 → p1 < C → c1 < 3 →
        physical_index (C : Int) p c = physical_index (C : Int) p1 c1 → p = p1 ∧ c = c1)
    ∧ (∀ i : Nat, i < 3 * C → ∃ p c, p < C ∧ c < 3 ∧ physical_index (C : Int) p c = (i : Int))
    ∧ ∃ c1 d1 regs, led_nu801_create_chain k controller dev = outcome.ret 0 (c1, d1)
        ∧ c1.work.queued = true
        ∧ d1.classdevs = dev.classdevs ++ regs ∧ regs.length = 3 * C
        ∧ (∀ i, i < 3 * C → regs.count i = 1)
        ∧ (∀ i, i < 3 * C →
            ∃ led, c1.led_chain[i]? = some led ∧ led.registered = true ∧ led.index = i)
        ∧ (∀ (p c : Nat) (chip : led_nu801_chip) (ch : led_nu801_channel),
            controller.chips[p]? = some chip → chip.channels[c]? = some ch →
            c1.chain_data[3 * (C - p - 1) + (2 - c)]?
                = some (led_nu801_get_pwm_value ch.init_brightness)
            ∧ ∃ led, c1.led_chain[3 * (C - p - 1) + (2 - c)]? = some led
                ∧ led.level = ch.init_brightness) := by
  refine ⟨fun p c p1 c1 hp hc hp1 hc1 h => physical_index_inj C hrange p c p1 c1 hp hc hp1 hc1 h,
    fun i hi => physical_index_surj C hrange i hi, ?_⟩
  have hwf := full_wf C controller.chips hlen hfull
  have hL : controller.num_leds.toNat = 3 * C := by rw [hnl]; exact Int.toNat_ofNat _
  have hrng := jobs_in_range C hrange controller.chips hwf
  have hnd := full_nodup C hrange controller.chips hlen hfull
  obtain ⟨c1, d1, hrun, hdev, hjobs, _⟩ := create_all_nodup k hreg (3 * C) (by omega)
    (chain_jobs (C : Int) controller.chips) (fresh_chain controller) dev
    (by simp [fresh_chain, hL]) (by simp [fresh_chain, hL]) hrng hnd
    (fun job _ led h => fresh_chain_unregistered controller _ led h)
  have hf := create_all_frame k _ _ _ _ _ _ hrun
  -- the job of channel slot `c` of chip slot `p`
  have hjob : ∀ (p c : Nat) (chip : led_nu801_chip) (ch : led_nu801_channel),
      controller.chips[p]? = some chip → chip.channels[c]? = some ch →
      ((((3 * (C - p - 1) + (2 - c) : Nat) : Int)), ch) ∈ chain_jobs (C : Int) controller.chips := by
    intro p c chip ch hp hc
    obtain ⟨hp1, _⟩ := List.getElem?_eq_some_iff.mp hp
    obtain ⟨chip1, e1, e2, e3⟩ := hfull p (by omega)
    rw [hp] at e1
    injection e1 with e1
    subst e1
    obtain ⟨e4, e5⟩ := channel_at chip c ch e3 hc
    have := job_mem (C : Int) controller.chips p c chip ch hp hc
    rw [e2, e4, physical_index_nat C hrange p c (by omega) e5] at this
    exact this
  refine ⟨{ c1 with work := schedule_delayed_work c1.work }, d1,
    (chain_jobs (C : Int) controller.chips).map (fun job => job.1.toNat), ?_, ?_, hdev, ?_, ?_,
    ?_, ?_⟩
  · rw [create_chain_eq k controller dev h1 h2 (by rw [hnc, hlen]; simp)
      (fun x hx => (hwf x hx).2.1), hnc, hrun]
    simp
  · dsimp only
    rw [hf.2.1]
    rfl
  · rw [List.length_map, chain_jobs_length _ _ (fun x hx => (hwf x hx).2.1), hlen]
  · intro i hi
    apply List.count_eq_one_of_mem
    · have e : (chain_jobs (C : Int) controller.chips).map (fun job => job.1.toNat)
          = ((chain_jobs (C : Int) controller.chips).map Prod.fst).map Int.toNat := by
        rw [List.map_map]; rfl
      rw [e]
      apply List.Nodup.map_on _ hnd
      intro x hx y hy hxy
      obtain ⟨jx, hjx, rfl⟩ := List.mem_map.mp hx
      obtain ⟨jy, hjy, rfl⟩ := List.mem_map.mp hy
      have := hrng jx hjx
      have := hrng jy hjy
      omega
    · obtain ⟨p, c, hp, hc, _⟩ := physical_index_surj C hrange i hi
      obtain ⟨chip, e1, e2, e3⟩ := hfull (C - 1 - i / 3) (by omega)
      have hlen3 : chip.channels.length = 3 := by
        have := congrArg List.length e3
        simpa using this
      have hb : 2 - i % 3 < chip.channels.length := by omega
      have hch : chip.channels[2 - i % 3]? = some chip.channels[2 - i % 3] :=
        List.getElem?_eq_getElem hb
      have := hjob (C - 1 - i / 3) (2 - i % 3) chip _ e1 hch
      refine List.mem_map.mpr ⟨_, this, ?_⟩
      dsimp only
      omega
  · intro i hi
    obtain ⟨chip, e1, e2, e3⟩ := hfull (C - 1 - i / 3) (by omega)
    have hlen3 : chip.channels.length = 3 := by
      have := congrArg List.length e3
      simpa using this
    have hb : 2 - i % 3 < chip.channels.length := by omega
    have hch : chip.channels[2 - i % 3]? = some chip.channels[2 - i % 3] :=
      List.getElem?_eq_getElem hb
    have hm := hjob (C - 1 - i / 3) (2 - i % 3) chip _ e1 hch
    obtain ⟨_, led, l1, l2, l3, _⟩ := hjobs _ hm
    have ei : 3 * (C - (C - 1 - i / 3) - 1) + (2 - (2 - i % 3)) = i := by omega
    dsimp only at l1 l3
    rw [Int.toNat_ofNat, ei] at l1 l3
    exact ⟨led, l1, l2, l3⟩
  · intro p c chip ch hp hc
    have hm := hjob p c chip ch hp hc
    obtain ⟨d1, led, l1, _, _, l4⟩ := hjobs _ hm
    dsimp only at d1 l1 l4
    rw [Int.toNat_ofNat] at d1 l1
    exact ⟨d1, led, l1, l4⟩

theorem full_chain_created_witness :
    (∀ p c p1 c1 : Nat, p < 1 → c < 3 → p1 < 1 → c1 < 3 →
        physical_index ((1 : Nat) : Int) p c = physical_index ((1 : Nat) : Int) p1 c1
          → p = p1 ∧ c = c1)
    ∧ (∀ i : Nat, i < 3 * 1 →
        ∃ p c, p < 1 ∧ c < 3 ∧ physical_index ((1 : Nat) : Int) p c = (i : Int))
    ∧ ∃ c1 d1 regs,
        led_nu801_create_chain kernel_ok example_parsed { classdevs := [] }
          = outcome.ret 0 (c1, d1)
        ∧ c1.work.queued = true
        ∧ d1.classdevs = ({ classdevs := [] } : device).classdevs ++ regs
        ∧ regs.length = 3 * 1
        ∧ (∀ i, i < 3 * 1 → regs.count i = 1)
        ∧ (∀ i, i < 3 * 1 →
            ∃ led, c1.led_chain[i]? = some led ∧ led.registered = true ∧ led.index = i)
        ∧ (∀ (p c : Nat) (chip : led_nu801_chip) (ch : led_nu801_channel),
            example_parsed.chips[p]? = some chip → chip.channels[c]? = some ch →
            c1.chain_data[3 * (1 - p - 1) + (2 - c)]?
                = some (led_nu801_get_pwm_value ch.init_brightness)
            ∧ ∃ led, c1.led_chain[3 * (1 - p - 1) + (2 - c)]? = some led
                ∧ led.level = ch.init_brightness) :=
  full_chain_created kernel_ok example_parsed { classdevs := [] } 1 (by decide) rfl rfl rfl
    (fun p hp => by
      obtain rfl : p = 0 := by omega
      exact ⟨_, rfl, rfl, rfl⟩)
    (fun _ => le_refl 0) rfl rfl
/-! ### Range checks of the parser, for every `reg` value -/

theorem to_int_small (r : Nat) (h : r < 2147483648) : to_int r = (r : Int) := by
  unfold to_int; omega

theorem to_int_large (r : Nat) (h1 : 2147483648 ≤ r) (h2 : r < 4294967296) :
    to_int r = (r : Int) - 4294967296 := by
  unfold to_int; omega

theorem parse_channel_rejects (led_chip : led_nu801_chip) (node : channel_node) (r : Nat)
    (h : node.reg = of_read.ok r) (h1 : 3 ≤ r) (h2 : r < 2147483648) :
    leds_nu801_parse_channel led_chip node = outcome.ret (-EINVAL) led_chip := by
  unfold leds_nu801_parse_channel
  rw [h]
  simp only [to_int_small r h2, NUM_CHANNELS]
  rw [if_pos (by omega)]

theorem parse_channel_negative (led_chip : led_nu801_chip) (node : channel_node) (r : Nat)
    (h : node.reg = of_read.ok r) (h1 : 2147483648 ≤ r) (h2 : r < 4294967296) :
    leds_nu801_parse_channel led_chip node = outcome.oob ((r : Int) - 4294967296) := by
  unfold leds_nu801_parse_channel
  rw [h]
  simp only [to_int_large r h1 h2, NUM_CHANNELS]
  rw [if_neg (by omega)]
  unfold slot
  rw [if_pos (by omega)]

theorem parse_chip_rejects (controller : led_nu801_data) (node : chip_node) (r : Nat)
    (h : node.reg = of_read.ok r) (h1 : controller.num_chips ≤ (r : Int))
    (h2 : r < 2147483648) :
    leds_nu801_parse_chip controller node = outcome.ret (-EINVAL) controller := by
  unfold leds_nu801_parse_chip
  rw [h]
  simp only [to_int_small r h2]
  rw [if_pos (by omega)]

theorem parse_chip_negative (controller : led_nu801_data) (node : chip_node) (r : Nat)
    (h : node.reg = of_read.ok r) (h0 : 0 ≤ controller.num_chips) (h1 : 2147483648 ≤ r)
    (h2 : r < 4294967296) :
    leds_nu801_parse_chip controller node = outcome.oob ((r : Int) - 4294967296) := by
  unfold leds_nu801_parse_chip
  rw [h]
  simp only [to_int_large r h1 h2]
  rw [if_neg (by omega)]
  unfold slot
  rw [if_pos (by omega)]
/-! ## Post-state and locking of a transmission -/

theorem clock_level_group (lei : Bool) (d w : Nat) (last : Bool) (js : List Nat)
    (rest : List event) :
    clock_level false (js.flatMap (bit_events lei d w last) ++ rest) = clock_level false rest := by
  induction js with
  | nil => rfl
  | cons j js ih =>
    rw [List.flatMap_cons, List.append_assoc, ← ih]
    unfold bit_events
    split <;> simp [clock_level]

theorem latch_level_group (lei : Bool) (d w : Nat) (last : Bool) (js : List Nat)
    (lvl : Bool) (rest : List event) :
    latch_level lvl (js.flatMap (bit_events lei d w last) ++ rest) = latch_level lvl rest := by
  induction js with
  | nil => rfl
  | cons j js ih =>
    rw [List.flatMap_cons, List.append_assoc, ← ih]
    unfold bit_events
    split <;> simp [latch_level]

theorem clock_data_writes_bit (lei : Bool) (d w : Nat) (last : Bool) (j : Nat)
    (want held : Bool) (rest : List event) :
    clock_data_writes want held (bit_events lei d w last j ++ rest)
      = (if held = want then 3 else 0) + clock_data_writes want held rest := by
  unfold bit_events
  split <;> split <;> simp [clock_data_writes, *] <;> omega

theorem clock_data_writes_group (lei : Bool) (d w : Nat) (last : Bool) (js : List Nat)
    (want held : Bool) (rest : List event) :
    clock_data_writes want held (js.flatMap (bit_events lei d w last) ++ rest)
      = (if held = want then 3 * js.length else 0) + clock_data_writes want held rest := by
  induction js with
  | nil => simp
  | cons j js ih =>
    rw [List.flatMap_cons, List.append_assoc, List.length_cons, clock_data_writes_bit, ih]
    split <;> omega

theorem clock_level_word_loop (lei : Bool) (d : Nat) (cd : List Nat) (N : Nat) :
    ∀ (todo index : Nat) (rest : List event),
      clock_level false (word_loop lei d cd N todo index ++ rest) = clock_level false rest := by
  intro todo
  induction todo with
  | zero => intro index rest; rfl
  | succ todo ih =>
    intro index rest
    rw [word_loop, bit_loop_word, List.append_assoc, clock_level_group, ih]

theorem latch_level_word_loop (lei : Bool) (d : Nat) (cd : List Nat) (N : Nat) :
    ∀ (todo index : Nat) (lvl : Bool) (rest : List event),
      latch_level lvl (word_loop lei d cd N todo index ++ rest) = latch_level lvl rest := by
  intro todo
  induction todo with
  | zero => intro index lvl rest; rfl
  | succ todo ih =>
    intro index lvl rest
    rw [word_loop, bit_loop_word, List.append_assoc, latch_level_group, ih]

theorem clock_data_writes_word_loop (lei : Bool) (d : Nat) (cd : List Nat) (N : Nat)
    (want held : Bool) :
    ∀ (todo index : Nat) (rest : List event),
      clock_data_writes want held (word_loop lei d cd N todo index ++ rest)
        = (if held = want then 48 * todo else 0) + clock_data_writes want held rest := by
  intro todo
  induction todo with
  | zero => intro index rest; simp [word_loop]
  | succ todo ih =>
    intro index rest
    rw [word_loop, bit_loop_word, List.append_assoc, clock_data_writes_group, ih]
    have : (bits_down 15).length = 16 := rfl
    rw [this]
    split <;> omega

/-- C17: one run of `led_nu801_work` leaves every buffer word and every LED record (so
every level) unchanged, ends with the clock line low and the latch line low, and two
controllers with the same buffer (of `num_leds` words), the same latch presence and the
same clock delay produce the same event trace, whatever their `pending` counters, LED
records and other fields are. -/
theorem work_post_state (c c2 : led_nu801_data)
    (hn : c.num_leds = (c.chain_data.length : Int))
    (hn2 : c2.num_leds = (c2.chain_data.length : Int))
    (hd : c2.chain_data = c.chain_data) (hl : c2.lei = c.lei)
    (hc : c2.clock_delay_ns = c.clock_delay_ns) :
    (led_nu801_work c).2.chain_data = c.chain_data
    ∧ (led_nu801_work c).2.led_chain = c.led_chain
    ∧ clock_level false (led_nu801_work c).1 = false
    ∧ latch_level false (led_nu801_work c).1 = false
    ∧ (led_nu801_work c2).1 = (led_nu801_work c).1 := by
  refine ⟨rfl, rfl, ?_, ?_, ?_⟩
  · unfold led_nu801_work led_nu801_work_shift led_nu801_work_finish
    rw [List.append_assoc, List.append_assoc, List.singleton_append]
    have e : ∀ t, clock_level false (event.mutex_lock :: t) = clock_level false t := by
      intro t; simp [clock_level]
    rw [e, clock_level_word_loop]
    cases c.lei <;> simp [clock_level]
  · unfold led_nu801_work led_nu801_work_shift led_nu801_work_finish
    rw [List.append_assoc, List.append_assoc, List.singleton_append]
    have e : ∀ t, latch_level false (event.mutex_lock :: t) = latch_level false t := by
      intro t; simp [latch_level]
    rw [e, latch_level_word_loop]
    cases c.lei <;> simp [latch_level]
  · unfold led_nu801_work led_nu801_work_shift led_nu801_work_finish
    rw [hn2, hd, hl, hc, hn]

theorem work_post_state_witness :
    (led_nu801_work example_latched).2.chain_data = example_latched.chain_data
    ∧ (led_nu801_work example_latched).2.led_chain = example_latched.led_chain
    ∧ clock_level false (led_nu801_work example_latched).1 = false
    ∧ latch_level false (led_nu801_work example_latched).1 = false
    ∧ (led_nu801_work { example_latched with pending := -7, led_chain := [] }).1
        = (led_nu801_work example_latched).1 :=
  work_post_state example_latched { example_latched with pending := -7, led_chain := [] }
    rfl rfl rfl rfl rfl

/-- C12 (as stated, refuted): in the run of `led_nu801_work` on a two-word buffer, 96
clock and data writes are made while the buffer lock is held. -/
theorem writes_under_lock_example :
    clock_data_writes true false (led_nu801_work example_latched).1 = 96
    ∧ clock_data_writes false false (led_nu801_work example_latched).1 = 0 := by
  decide

/-! ## Brightness-set: frame and scheduling -/

theorem set_same (controller : led_nu801_data) (led value : Nat) (led_dat : led_nu801_led_data)
    (hled : controller.led_chain[led]? = some led_dat) (h : led_dat.level = value) :
    led_nu801_set controller led value = (0, controller) := by
  unfold led_nu801_set
  rw [hled]
  simp [h]

theorem set_changed (controller : led_nu801_data) (led value : Nat)
    (led_dat : led_nu801_led_data)
    (hled : controller.led_chain[led]? = some led_dat) (h : led_dat.level ≠ value) :
    (led_nu801_set controller led value).2 =
      { controller with
          chain_data := controller.chain_data.set led_dat.index (led_nu801_get_pwm_value value),
          led_chain := controller.led_chain.set led { led_dat with level := value },
          pending := (atomic_dec_and_test controller.pending).1,
          work := if (atomic_dec_and_test controller.pending).2
            then schedule_delayed_work controller.work else controller.work } := by
  unfold led_nu801_set
  rw [hled]
  simp only [ne_eq, h, not_false_eq_true, if_true]
  split <;> rfl

theorem dec_exact (v : Int) (h1 : -2147483648 < v) (h2 : v ≤ 2147483647) :
    (atomic_dec_and_test v).1 = v - 1 := by
  unfold atomic_dec_and_test to_int u32
  dsimp only
  omega

theorem dec_test_iff (v : Int) (h1 : -2147483648 ≤ v) (h2 : v ≤ 2147483647) :
    (atomic_dec_and_test v).2 = true ↔ v = 1 := by
  unfold atomic_dec_and_test to_int u32
  simp only [decide_eq_true_eq]
  constructor
  · intro h; split at h <;> omega
  · intro h; subst h; decide

/-- C16: for an LED record `led_dat = led_chain[led]` and a `pending` counter that the
decrement does not wrap (`INT_MIN < pending`): a call with a level different from the
recorded one writes the encoding of the new level into the buffer word at the LED's
index and nothing else in the buffer, changes nothing but the level in that LED record
and no other record, decrements `pending` by one, leaves the work item as it is or queues
it (the latter exactly when `pending` was 1), and keeps every other field; a call with
the level the LED already has returns the controller unchanged; so a repeated call
changes nothing. -/
theorem set_frame (controller : led_nu801_data) (led value : Nat)
    (led_dat : led_nu801_led_data)
    (hled : controller.led_chain[led]? = some led_dat)
    (hp1 : -2147483648 < controller.pending) (hp2 : controller.pending ≤ 2147483647) :
    (led_dat.level ≠ value →
      (led_nu801_set controller led value).2.chain_data
          = controller.chain_data.set led_dat.index (led_nu801_get_pwm_value value)
      ∧ (led_dat.index < controller.chain_data.length →
          (led_nu801_set controller led value).2.chain_data[led_dat.index]?
            = some (led_nu801_get_pwm_value value))
      ∧ (∀ j, j ≠ led_dat.index →
          (led_nu801_set controller led value).2.chain_data[j]? = controller.chain_data[j]?)
      ∧ (led_nu801_set controller led value).2.led_chain[led]?
          = some { led_dat with level := value }
      ∧ (∀ j, j ≠ led →
          (led_nu801_set controller led value).2.led_chain[j]? = controller.led_chain[j]?)
      ∧ (led_nu801_set controller led value).2.pending = controller.pending - 1
      ∧ (led_nu801_set controller led value).2.work
          = (if controller.pending = 1 then schedule_delayed_work controller.work
              else controller.work)
      ∧ (led_nu801_set controller led value).2.lei = controller.lei
      ∧ (led_nu801_set controller led value).2.num_chips = controller.num_chips
      ∧ (led_nu801_set controller led value).2.num_leds = controller.num_leds
      ∧ (led_nu801_set controller led value).2.clock_delay_ns = controller.clock_delay_ns
      ∧ (led_nu801_set controller led value).2.chips = controller.chips)
    ∧ (led_dat.level = value → led_nu801_set controller led value = (0, controller))
    ∧ led_nu801_set (led_nu801_set controller led value).2 led value
        = (0, (led_nu801_set controller led value).2) := by
  have hlt : led < controller.led_chain.length := (List.getElem?_eq_some_iff.mp hled).1
  refine ⟨?_, fun h => set_same controller led value led_dat hled h, ?_⟩
  · intro h
    rw [set_changed controller led value led_dat hled h]
    dsimp only
    refine ⟨rfl, ?_, ?_, ?_, ?_, dec_exact _ hp1 hp2, ?_, rfl, rfl, rfl, rfl, rfl⟩
    · intro hi
      exact List.getElem?_set_self hi
    · intro j hj
      exact List.getElem?_set_ne (Ne.symm hj)
    · exact List.getElem?_set_self hlt
    · intro j hj
      exact List.getElem?_set_ne (Ne.symm hj)
    · by_cases h1 : controller.pending = 1
      · rw [if_pos h1, if_pos ((dec_test_iff _ (by omega) hp2).mpr h1)]
      · rw [if_neg h1, if_neg (fun h2 => h1 ((dec_test_iff _ (by omega) hp2).mp h2))]
  · by_cases h : led_dat.level = value
    · rw [set_same controller led value led_dat hled h]
      exact set_same controller led value led_dat hled h
    · apply set_same _ led value { led_dat with level := value }
      · rw [set_changed controller led value led_dat hled h]
        exact List.getElem?_set_self hlt
      · rfl

theorem set_frame_witness :
    (example_led.level ≠ 9 →
      (led_nu801_set example_latched 1 9).2.chain_data
          = example_latched.chain_data.set example_led.index (led_nu801_get_pwm_value 9)
      ∧ (example_led.index < example_latched.chain_data.length →
          (led_nu801_set example_latched 1 9).2.chain_data[example_led.index]?
            = some (led_nu801_get_pwm_value 9))
      ∧ (∀ j, j ≠ example_led.index →
          (led_nu801_set example_latched 1 9).2.chain_data[j]?
            = example_latched.chain_data[j]?)
      ∧ (led_nu801_set example_latched 1 9).2.led_chain[1]?
          = some { example_led with level := 9 }
      ∧ (∀ j, j ≠ 1 →
          (led_nu801_set example_latched 1 9).2.led_chain[j]?
            = example_latched.led_chain[j]?)
      ∧ (led_nu801_set example_latched 1 9).2.pending = example_latched.pending - 1
      ∧ (led_nu801_set example_latched 1 9).2.work
          = (if example_latched.pending = 1
              then schedule_delayed_work example_latched.work
              else example_latched.work)
      ∧ (led_nu801_set example_latched 1 9).2.lei = example_latched.lei
      ∧ (led_nu801_set example_latched 1 9).2.num_chips = example_latched.num_chips
      ∧ (led_nu801_set example_latched 1 9).2.num_leds = example_latched.num_leds
      ∧ (led_nu801_set example_latched 1 9).2.clock_delay_ns
          = example_latched.clock_delay_ns
      ∧ (led_nu801_set example_latched 1 9).2.chips = example_latched.chips)
    ∧ (example_led.level = 9 →
        led_nu801_set example_latched 1 9 = (0, example_latched))
    ∧ led_nu801_set (led_nu801_set example_latched 1 9).2 1 9
        = (0, (led_nu801_set example_latched 1 9).2) :=
  set_frame example_latched 1 9 example_led rfl (by decide) (by decide)

theorem set_schedules_eq (controller : led_nu801_data) (led value : Nat)
    (led_dat : led_nu801_led_data) (hled : controller.led_chain[led]? = some led_dat) :
    set_schedules controller led value
      = (decide (led_dat.level ≠ value) && (atomic_dec_and_test controller.pending).2) := by
  unfold set_schedules
  by_cases h : led_dat.level = value
  · rw [set_same { controller with work := { queued := false } } led value led_dat hled h]
    simp [h]
  · rw [set_changed { controller with work := { queued := false } } led value led_dat hled h]
    dsimp only
    cases (atomic_dec_and_test controller.pending).2 <;>
      simp [h, schedule_delayed_work]

theorem set_pending (controller : led_nu801_data) (led value : Nat)
    (led_dat : led_nu801_led_data) (hled : controller.led_chain[led]? = some led_dat)
    (h : led_dat.level ≠ value) :
    (led_nu801_set controller led value).2.pending
      = (atomic_dec_and_test controller.pending).1 := by
  rw [set_changed controller led value led_dat hled h]

theorem later_calls_silent :
    ∀ (calls : List (Nat × Nat)) (c : led_nu801_data) (j : Nat), 1 ≤ j →
      u32 c.pending = u32 (1 - (j : Int)) → j + calls.length ≤ 4294967296 →
      level_changing c calls →
      schedule_flags c calls = List.replicate calls.length false := by
  intro calls
  induction calls with
  | nil => intro c j _ _ _ _; rfl
  | cons call rest ih =>
    intro c j hj hp hlen hch
    obtain ⟨led, value⟩ := call
    unfold level_changing at hch
    obtain ⟨⟨led_dat, hled, hne⟩, hrest⟩ := hch
    rw [List.length_cons] at hlen
    unfold schedule_flags
    rw [List.length_cons, List.replicate_succ, set_schedules_eq c led value led_dat hled]
    have htest : (atomic_dec_and_test c.pending).2 = false := by
      unfold atomic_dec_and_test to_int
      unfold u32 at hp ⊢
      simp only [decide_eq_false_iff_not]
      intro h
      split at h <;> omega
    have hnext : u32 (led_nu801_set c led value).2.pending = u32 (1 - ((j + 1 : Nat) : Int)) := by
      rw [set_pending c led value led_dat hled hne]
      unfold atomic_dec_and_test to_int
      unfold u32 at hp ⊢
      dsimp only
      split <;> omega
    rw [htest, Bool.and_false, ih _ (j + 1) (by omega) hnext (by omega) hrest]

/-- C13: for an LED record `led_dat = led_chain[led]` and a `pending` counter within the
range of `int`, a `led_nu801_set` call reaches `schedule_delayed_work` if and only if the
requested level differs from the recorded one and `pending` was 1; among `k ≥ 1`
level-changing calls made one after the other from a controller with `pending = 1`
(`k` up to `2^32`, the period of the 32-bit counter), exactly the first one does; and
`led_nu801_work` leaves `pending` at 1 whatever it was. -/
theorem set_schedules_iff (controller : led_nu801_data) (led value : Nat)
    (led_dat : led_nu801_led_data)
    (hled : controller.led_chain[led]? = some led_dat)
    (hp1 : -2147483648 ≤ controller.pending) (hp2 : controller.pending ≤ 2147483647)
    (idle : led_nu801_data) (calls : List (Nat × Nat))
    (hidle : idle.pending = 1) (hne : calls ≠ []) (hk : calls.length ≤ 4294967296)
    (hch : level_changing idle calls) (worked : led_nu801_data) :
    (set_schedules controller led value = true
        ↔ (led_dat.level ≠ value ∧ controller.pending = 1))
    ∧ schedule_flags idle calls = true :: List.replicate (calls.length - 1) false
    ∧ (led_nu801_work worked).2.pending = 1 := by
  refine ⟨?_, ?_, rfl⟩
  · rw [set_schedules_eq controller led value led_dat hled, Bool.and_eq_true,
      dec_test_iff _ hp1 hp2]
    simp
  · cases calls with
    | nil => exact absurd rfl hne
    | cons call rest =>
      obtain ⟨led1, value1⟩ := call
      unfold level_changing at hch
      obtain ⟨⟨led_dat1, hled1, hne1⟩, hrest⟩ := hch
      rw [List.length_cons] at hk
      unfold schedule_flags
      rw [set_schedules_eq idle led1 value1 led_dat1 hled1, hidle]
      have hnext : u32 (led_nu801_set idle led1 value1).2.pending = u32 (1 - ((1 : Nat) : Int)) := by
        rw [set_pending idle led1 value1 led_dat1 hled1 hne1, hidle]
        decide
      rw [later_calls_silent rest _ 1 (by omega) hnext (by omega) hrest]
      simp [hne1]
      decide

theorem set_schedules_iff_witness :
    (set_schedules example_latched 1 9 = true
        ↔ (example_led.level ≠ 9 ∧ example_latched.pending = 1))
    ∧ schedule_flags example_idle [(0, 0), (1, 9), (0, 7)]
        = true :: List.replicate ([(0, 0), (1, 9), (0, 7)].length - 1) false
    ∧ (led_nu801_work example_latched).2.pending = 1 :=
  set_schedules_iff example_latched 1 9 example_led rfl (by decide) (by decide)
    example_idle [(0, 0), (1, 9), (0, 7)] rfl (by decide) (by decide)
    ⟨⟨_, rfl, by decide⟩, ⟨_, rfl, by decide⟩, ⟨_, rfl, by decide⟩, trivial⟩
    example_latched

/-! ## Partially populated chips -/

/-- C14: a chip with channel nodes `reg = 0` and `reg = 2` only passes the parser's
channel-count check (two channels), and `led_nu801_create_chain` then fails with
`-EEXIST` after one registration, because the zero-filled slot 1 of `channels` resolves
to the buffer index of slot 0; the same happens with the single channel `reg = 1`; a
chip with channel nodes `reg = 1` and `reg = 2` is constructed with three registered
LEDs for its two configured channels; the fully populated chip gives three. -/
theorem partial_chip_run :
    (match leds_nu801_create_of kernel_ok true true (node_with_channels [0, 2])
        { classdevs := [] } with
      | outcome.ret code (c, d) => some (code, d.classdevs, c.work.queued)
      | outcome.oob _ => none) = some (-EEXIST, [2], false)
    ∧ (match leds_nu801_create_of kernel_ok true true (node_with_channels [1])
        { classdevs := [] } with
      | outcome.ret code (c, d) => some (code, d.classdevs, c.work.queued)
      | outcome.oob _ => none) = some (-EEXIST, [2, 1], false)
    ∧ (match leds_nu801_create_of kernel_ok true true (node_with_channels [1, 2])
        { classdevs := [] } with
      | outcome.ret code (c, d) =>
        some (code, d.classdevs, c.led_chain.map (fun l => l.registered))
      | outcome.oob _ => none) = some (0, [2, 1, 0], [true, true, true])
    ∧ (match leds_nu801_create_of kernel_ok true true (node_with_channels [0, 1, 2])
        { classdevs := [] } with
      | outcome.ret code (c, d) =>
        some (code, d.classdevs, c.led_chain.map (fun l => l.registered))
      | outcome.oob _ => none) = some (0, [2, 1, 0], [true, true, true]) := by
  decide

/-! ## Consistency invariant -/

theorem create_regfail (k : kernel) (c : led_nu801_data) (d : device) (n : Nat)
    (ch : led_nu801_channel) (led : led_nu801_led_data)
    (hled : c.led_chain[n]? = some led) (hr : led.registered = false)
    (hn : n < c.chain_data.length) (hn2 : n < 4294967296)
    (hreg : k.classdev_register n < 0) :
    led_nu801_create k c d (n : Int) ch =
      outcome.ret (k.classdev_register n)
        ({ c with
            led_chain := c.led_chain.set n
              { led with level := ch.init_brightness, index := n },
            chain_data := c.chain_data.set n (led_nu801_get_pwm_value ch.init_brightness) },
         d) := by
  unfold led_nu801_create
  rw [slot_nat, hled]
  have hu : u32 (n : Int) = n := u32_of_nat n hn2
  have hs : slot c.chain_data ((n : Nat) : Int) = some (c.chain_data[n]) := by
    rw [slot_nat, List.getElem?_eq_getElem hn]
  simp only [hr, hu, hs, Int.toNat_ofNat]
  simp [hreg]

theorem create_oob_neg (k : kernel) (c : led_nu801_data) (d : device) (i : Int)
    (ch : led_nu801_channel) (h : i < 0) :
    led_nu801_create k c d i ch = outcome.oob i := by
  unfold led_nu801_create slot
  rw [if_pos h]

theorem create_oob_big (k : kernel) (c : led_nu801_data) (d : device) (n : Nat)
    (ch : led_nu801_channel) (h : c.led_chain.length ≤ n) :
    led_nu801_create k c d (n : Int) ch = outcome.oob (n : Int) := by
  unfold led_nu801_create
  rw [slot_nat, List.getElem?_eq_none h]

theorem countP_set_registered (l : List led_nu801_led_data) (n : Nat)
    (led new : led_nu801_led_data) (hled : l[n]? = some led) (hr : led.registered = false)
    (hnew : new.registered = true) :
    (l.set n new).countP (fun x => x.registered) = l.countP (fun x => x.registered) + 1 := by
  obtain ⟨hn, e⟩ := List.getElem?_eq_some_iff.mp hled
  rw [List.countP_set _ _ _ _ hn, e, hr, hnew]
  simp

theorem inv_set_slot (c : led_nu801_data) (n : Nat) (new : led_nu801_led_data) (w : Nat)
    (hinv : chain_inv c) (hn : n < c.led_chain.length)
    (hnew : new.registered = true → new.index = n ∧ w = led_nu801_get_pwm_value new.level) :
    chain_inv { c with led_chain := c.led_chain.set n new, chain_data := c.chain_data.set n w } := by
  obtain ⟨h1, h2, h3⟩ := hinv
  refine ⟨by simp [h1], by simp [h2], ?_⟩
  intro i led hled hr
  dsimp only at hled ⊢
  by_cases hin : n = i
  · subst hin
    rw [List.getElem?_set_self hn] at hled
    injection hled with hled
    subst hled
    obtain ⟨e1, e2⟩ := hnew hr
    refine ⟨e1, ?_⟩
    rw [List.getElem?_set_self (by omega), e2]
  · rw [List.getElem?_set_ne hin] at hled
    rw [List.getElem?_set_ne hin]
    exact h3 i led hled hr

theorem create_inv (k : kernel) (c : led_nu801_data) (d : device) (i : Int)
    (ch : led_nu801_channel) (code : Int) (c1 : led_nu801_data) (d1 : device)
    (hinv : chain_inv c) (hrange : c.num_leds < 2147483648)
    (h : led_nu801_create k c d i ch = outcome.ret code (c1, d1)) :
    chain_inv c1
    ∧ (0 ≤ code → c1.led_chain.countP (fun x => x.registered)
        = c.led_chain.countP (fun x => x.registered) + 1) := by
  have hl1 := hinv.1
  have hl2 := hinv.2.1
  by_cases hi : i < 0
  · rw [create_oob_neg k c d i ch hi] at h
    exact outcome.noConfusion h
  obtain ⟨n, rfl⟩ : ∃ n : Nat, i = (n : Int) := ⟨i.toNat, by omega⟩
  by_cases hn : n < c.led_chain.length
  swap
  · rw [create_oob_big k c d n ch (by omega)] at h
    exact outcome.noConfusion h
  have hled : c.led_chain[n]? = some (c.led_chain[n]) := List.getElem?_eq_getElem hn
  cases hr : (c.led_chain[n]).registered with
  | true =>
    rw [create_dup k c d n ch _ hled hr] at h
    injection h with hc hs
    injection hs with hs1 _
    subst hs1
    refine ⟨hinv, fun h0 => ?_⟩
    rw [← hc] at h0
    exact absurd h0 (by decide)
  | false =>
    by_cases hreg : k.classdev_register n < 0
    · rw [create_regfail k c d n ch _ hled hr (by omega) (by omega) hreg] at h
      injection h with hc hs
      injection hs with hs1 _
      subst hs1
      refine ⟨inv_set_slot c n _ _ hinv hn ?_, fun h0 => ?_⟩
      · intro hreg2
        dsimp only at hreg2
        rw [hr] at hreg2
        exact Bool.noConfusion hreg2
      · omega
    · rw [create_ok k c d n ch _ hled hr (by omega) (by omega) (by omega)] at h
      injection h with hc hs
      injection hs with hs1 _
      subst hs1
      refine ⟨inv_set_slot c n _ _ hinv hn (fun _ => ⟨rfl, rfl⟩), fun _ => ?_⟩
      dsimp only
      exact countP_set_registered c.led_chain n _ _ hled hr rfl

theorem chan_loop_inv (k : kernel) (led_chip : led_nu801_chip) (idx : Int) :
    ∀ (todo chan : Nat) (c : led_nu801_data) (d : device) (code : Int)
      (c1 : led_nu801_data) (d1 : device),
      chain_inv c → c.num_leds < 2147483648 →
      create_chan_loop k led_chip idx todo chan c d = outcome.ret code (c1, d1) →
      chain_inv c1 ∧ c1.num_leds = c.num_leds ∧ c1.chips = c.chips
      ∧ (0 ≤ code → c1.led_chain.countP (fun x => x.registered)
          = c.led_chain.countP (fun x => x.registered) + todo) := by
  intro todo
  induction todo with
  | zero =>
    intro chan c d code c1 d1 hinv _ h
    rw [create_chan_loop] at h
    injection h with _ hs
    injection hs with hs1 _
    subst hs1
    exact ⟨hinv, rfl, rfl, fun _ => rfl⟩
  | succ todo ih =>
    intro chan c d code c1 d1 hinv hrange h
    rw [create_chan_loop] at h
    cases hch : led_chip.channels[chan]? with
    | none => rw [hch] at h; exact outcome.noConfusion h
    | some channel =>
      rw [hch] at h
      dsimp only at h
      cases hc : led_nu801_create k c d (chan_index idx channel.index) channel with
      | oob s => rw [hc] at h; exact outcome.noConfusion h
      | ret code2 s =>
        obtain ⟨c2, d2⟩ := s
        rw [hc] at h
        dsimp only at h
        obtain ⟨hinv2, hcount2⟩ := create_inv k c d _ channel code2 c2 d2 hinv hrange hc
        have hf := create_frame k c d _ channel code2 c2 d2 hc
        by_cases hneg : code2 < 0
        · rw [if_pos hneg] at h
          injection h with hcode hs
          injection hs with hs1 _
          subst hs1
          subst hcode
          exact ⟨hinv2, hf.2.2.2.2.1, hf.1, fun h0 => by omega⟩
        · rw [if_neg hneg] at h
          obtain ⟨g1, g2, g3, g4⟩ := ih (chan + 1) c2 d2 code c1 d1 hinv2
            (by rw [hf.2.2.2.2.1]; exact hrange) h
          refine ⟨g1, g2.trans hf.2.2.2.2.1, g3.trans hf.1, fun h0 => ?_⟩
          rw [g4 h0, hcount2 (by omega)]
          omega

theorem chip_loop_inv (k : kernel) (C : Int) :
    ∀ (todo chip : Nat) (c : led_nu801_data) (d : device) (code : Int)
      (c1 : led_nu801_data) (d1 : device),
      chain_inv c → c.num_leds < 2147483648 →
      create_chip_loop k C todo chip c d = outcome.ret code (c1, d1) →
      chain_inv c1 ∧ c1.num_leds = c.num_leds ∧ c1.chips = c.chips
      ∧ (0 ≤ code → c1.led_chain.countP (fun x => x.registered)
          = c.led_chain.countP (fun x => x.registered) + NUM_CHANNELS * todo) := by
  intro todo
  induction todo with
  | zero =>
    intro chip c d code c1 d1 hinv _ h
    rw [create_chip_loop] at h
    injection h with _ hs
    injection hs with hs1 _
    subst hs1
    exact ⟨hinv, rfl, rfl, fun _ => rfl⟩
  | succ todo ih =>
    intro chip c d code c1 d1 hinv hrange h
    rw [create_chip_loop] at h
    cases hch : c.chips[chip]? with
    | none => rw [hch] at h; exact outcome.noConfusion h
    | some led_chip =>
      rw [hch] at h
      dsimp only at h
      cases hc : create_chan_loop k led_chip (chip_index C led_chip.index)
          NUM_CHANNELS 0 c d with
      | oob s => rw [hc] at h; exact outcome.noConfusion h
      | ret code2 s =>
        obtain ⟨c2, d2⟩ := s
        rw [hc] at h
        dsimp only at h
        obtain ⟨hinv2, hnl, hchips, hcount2⟩ :=
          chan_loop_inv k led_chip _ NUM_CHANNELS 0 c d code2 c2 d2 hinv hrange hc
        by_cases hneg : code2 < 0
        · rw [if_pos hneg] at h
          injection h with hcode hs
          injection hs with hs1 _
          subst hs1
          subst hcode
          exact ⟨hinv2, hnl, hchips, fun h0 => by omega⟩
        · rw [if_neg hneg] at h
          obtain ⟨g1, g2, g3, g4⟩ := ih (chip + 1) c2 d2 code c1 d1 hinv2
            (by rw [hnl]; exact hrange) h
          refine ⟨g1, g2.trans hnl, g3.trans hchips, fun h0 => ?_⟩
          rw [g4 h0, hcount2 (by omega)]
          unfold NUM_CHANNELS
          omega

theorem fresh_inv (controller : led_nu801_data) : chain_inv (fresh_chain controller) := by
  refine ⟨by simp [fresh_chain], by simp [fresh_chain], ?_⟩
  intro i led hled hr
  have := fresh_chain_unregistered controller i led hled
  rw [this] at hr
  exact Bool.noConfusion hr

theorem fresh_count (controller : led_nu801_data) :
    (fresh_chain controller).led_chain.countP (fun x => x.registered) = 0 := by
  unfold fresh_chain
  dsimp only
  rw [List.countP_eq_zero]
  intro a ha
  rw [(List.mem_replicate.mp ha).2]
  decide

theorem create_chain_inv (k : kernel) (controller : led_nu801_data) (dev : device)
    (c0 : led_nu801_data) (d0 : device) (hrange : controller.num_leds < 2147483648)
    (h : led_nu801_create_chain k controller dev = outcome.ret 0 (c0, d0)) :
    chain_inv c0 ∧ c0.num_leds = controller.num_leds
    ∧ c0.led_chain.countP (fun x => x.registered)
        = NUM_CHANNELS * controller.num_chips.toNat := by
  unfold led_nu801_create_chain at h
  dsimp only at h
  cases h1 : k.kcalloc_led_chain with
  | false =>
    rw [h1] at h
    simp only [Bool.not_false, if_true] at h
    injection h with hc _
    exact absurd hc (by decide)
  | true =>
    cases h2 : k.kcalloc_chain_data with
    | false =>
      rw [h1, h2] at h
      simp only [Bool.not_false, Bool.not_true, Bool.false_eq_true, if_true, if_false] at h
      injection h with hc _
      exact absurd hc (by decide)
    | true =>
      rw [h1, h2] at h
      simp only [Bool.not_true, Bool.false_eq_true, if_false] at h
      cases hc : create_chip_loop k controller.num_chips controller.num_chips.toNat 0
          (fresh_chain controller) dev with
      | oob s =>
        unfold fresh_chain at hc
        rw [hc] at h
        exact outcome.noConfusion h
      | ret code s =>
        obtain ⟨c2, d2⟩ := s
        obtain ⟨g1, g2, _, g4⟩ := chip_loop_inv k controller.num_chips
          controller.num_chips.toNat 0 (fresh_chain controller) dev code c2 d2
          (fresh_inv controller) hrange hc
        unfold fresh_chain at hc
        rw [hc] at h
        dsimp only at h
        by_cases hneg : code < 0
        · rw [if_pos hneg] at h
          injection h with hcode _
          omega
        · rw [if_neg hneg] at h
          injection h with _ hs
          injection hs with hs1 _
          subst hs1
          refine ⟨?_, g2, ?_⟩
          · exact ⟨g1.1, g1.2.1, g1.2.2⟩
          · dsimp only
            rw [g4 (by omega), fresh_count]
            omega

theorem chain_inv_congr (c c1 : led_nu801_data) (hinv : chain_inv c)
    (h1 : c1.led_chain = c.led_chain) (h2 : c1.chain_data = c.chain_data)
    (h3 : c1.num_leds = c.num_leds) : chain_inv c1 := by
  unfold chain_inv at hinv ⊢
  rw [h1, h2, h3]
  exact hinv

theorem set_none (controller : led_nu801_data) (led value : Nat)
    (h : controller.led_chain[led]? = none) :
    led_nu801_set controller led value = (0, controller) := by
  unfold led_nu801_set
  rw [h]

theorem set_inv_reg (c : led_nu801_data) (led value : Nat) (led_dat : led_nu801_led_data)
    (hinv : chain_inv c) (hled : c.led_chain[led]? = some led_dat)
    (hr : led_dat.registered = true) :
    chain_inv (led_nu801_set c led value).2 := by
  by_cases h : led_dat.level = value
  · rw [set_same c led value led_dat hled h]
    exact hinv
  · rw [set_changed c led value led_dat hled h]
    have hidx := (hinv.2.2 led led_dat hled hr).1
    have hlt : led < c.led_chain.length := (List.getElem?_eq_some_iff.mp hled).1
    have := inv_set_slot c led { led_dat with level := value }
      (led_nu801_get_pwm_value value) hinv hlt (fun _ => ⟨hidx, rfl⟩)
    apply chain_inv_congr _ _ this
    · rfl
    · dsimp only
      rw [hidx]
    · rfl

theorem set_registered (c : led_nu801_data) (led value : Nat)
    (hall : ∀ x ∈ c.led_chain, x.registered = true) :
    ∀ x ∈ (led_nu801_set c led value).2.led_chain, x.registered = true := by
  cases hled : c.led_chain[led]? with
  | none => rw [set_none c led value hled]; exact hall
  | some led_dat =>
    by_cases h : led_dat.level = value
    · rw [set_same c led value led_dat hled h]; exact hall
    · rw [set_changed c led value led_dat hled h]
      intro x hx
      dsimp only at hx
      rcases List.mem_or_eq_of_mem_set hx with hx | hx
      · exact hall x hx
      · rw [hx]
        exact hall led_dat (List.getElem?_mem hled)

theorem delete_inv (c : led_nu801_data) (dev : device) (led : Nat) (hinv : chain_inv c) :
    chain_inv (led_nu801_delete c dev led).1 := by
  unfold led_nu801_delete
  cases hled : c.led_chain[led]? with
  | none => exact hinv
  | some led_dat =>
    dsimp only
    cases hr : led_dat.registered with
    | false => exact hinv
    | true =>
      simp only [if_true]
      split
      · exact set_inv_reg c led LED_OFF led_dat hinv hled hr
      · exact hinv

theorem delete_registered (c : led_nu801_data) (dev : device) (led : Nat)
    (hall : ∀ x ∈ c.led_chain, x.registered = true) :
    ∀ x ∈ (led_nu801_delete c dev led).1.led_chain, x.registered = true := by
  unfold led_nu801_delete
  cases hled : c.led_chain[led]? with
  | none => exact hall
  | some led_dat =>
    dsimp only
    cases hr : led_dat.registered with
    | false => exact hall
    | true =>
      simp only [if_true]
      split
      · exact set_registered c led LED_OFF hall
      · exact hall

theorem ops_inv :
    ∀ (ops : List chain_op) (s : led_nu801_data × device),
      chain_inv s.1 → (∀ x ∈ s.1.led_chain, x.registered = true) →
      chain_inv (apply_ops s ops).1
      ∧ (∀ x ∈ (apply_ops s ops).1.led_chain, x.registered = true)
      ∧ (apply_ops s ops).1.num_leds = s.1.num_leds := by
  intro ops
  induction ops with
  | nil => intro s h1 h2; exact ⟨h1, h2, rfl⟩
  | cons op rest ih =>
    intro s h1 h2
    unfold apply_ops
    rw [List.foldl_cons]
    have step : chain_inv (apply_op s op).1
        ∧ (∀ x ∈ (apply_op s op).1.led_chain, x.registered = true)
        ∧ (apply_op s op).1.num_leds = s.1.num_leds := by
      cases op with
      | set led value =>
        refine ⟨?_, set_registered s.1 led value h2, ?_⟩
        · cases hled : s.1.led_chain[led]? with
          | none =>
            show chain_inv (led_nu801_set s.1 led value).2
            rw [set_none s.1 led value hled]; exact h1
          | some led_dat =>
            exact set_inv_reg s.1 led value led_dat h1 hled
              (h2 led_dat (List.getElem?_mem hled))
        · show (led_nu801_set s.1 led value).2.num_leds = s.1.num_leds
          cases hled : s.1.led_chain[led]? with
          | none => rw [set_none s.1 led value hled]
          | some led_dat =>
            by_cases h : led_dat.level = value
            · rw [set_same s.1 led value led_dat hled h]
            · rw [set_changed s.1 led value led_dat hled h]
      | work => exact ⟨chain_inv_congr _ _ h1 rfl rfl rfl, h2, rfl⟩
      | delete led =>
        refine ⟨delete_inv s.1 s.2 led h1, delete_registered s.1 s.2 led h2, ?_⟩
        show (led_nu801_delete s.1 s.2 led).1.num_leds = s.1.num_leds
        unfold led_nu801_delete
        cases hled : s.1.led_chain[led]? with
        | none => rfl
        | some led_dat =>
          dsimp only
          cases hr : led_dat.registered with
          | false => rfl
          | true =>
            simp only [if_true]
            split
            · by_cases h : led_dat.level = LED_OFF
              · rw [set_same s.1 led LED_OFF led_dat hled h]
              · rw [set_changed s.1 led LED_OFF led_dat hled h]
            · rfl
    obtain ⟨g1, g2, g3⟩ := ih (apply_op s op) step.1 step.2.1
    exact ⟨g1, g2, g3.trans step.2.2⟩

/-- C15: in every state reached from a successful `led_nu801_create_chain` (on a
controller with `num_leds = NUM_CHANNELS * num_chips` within the range of `int`, as
`leds_nu801_create_of` sets it) by any sequence of `led_nu801_set` calls (any LED record,
any level), `led_nu801_work` runs and `led_nu801_delete` calls, every registered LED has
`index < num_leds`, every other registered LED has a different index, and the buffer
word at the LED's index is the encoding of its recorded level. -/
theorem records_consistent (k : kernel) (controller : led_nu801_data) (dev : device)
    (c0 : led_nu801_data) (d0 : device) (ops : List chain_op)
    (hnl : controller.num_leds = (NUM_CHANNELS : Int) * controller.num_chips)
    (hrange : controller.num_leds < 2147483648)
    (h : led_nu801_create_chain k controller dev = outcome.ret 0 (c0, d0))
    (i : Nat) (led : led_nu801_led_data)
    (hled : (apply_ops (c0, d0) ops).1.led_chain[i]? = some led)
    (hr : led.registered = true) :
    (led.index : Int) < (apply_ops (c0, d0) ops).1.num_leds
    ∧ (∀ (j : Nat) (led2 : led_nu801_led_data),
        (apply_ops (c0, d0) ops).1.led_chain[j]? = some led2 → led2.registered = true →
        j ≠ i → led2.index ≠ led.index)
    ∧ (apply_ops (c0, d0) ops).1.chain_data[led.index]?
        = some (led_nu801_get_pwm_value led.level) := by
  obtain ⟨hinv0, hnum0, hcount0⟩ := create_chain_inv k controller dev c0 d0 hrange h
  have hall0 : ∀ x ∈ c0.led_chain, x.registered = true := by
    have hlen : c0.led_chain.countP (fun x => x.registered) = c0.led_chain.length := by
      rw [hcount0, hinv0.1, hnum0, hnl]
      unfold NUM_CHANNELS
      omega
    exact List.countP_eq_length.mp hlen
  obtain ⟨hinv, _, hnum⟩ := ops_inv ops (c0, d0) hinv0 hall0
  obtain ⟨e1, e2⟩ := hinv.2.2 i led hled hr
  have hlt : i < (apply_ops (c0, d0) ops).1.led_chain.length :=
    (List.getElem?_eq_some_iff.mp hled).1
  rw [hinv.1] at hlt
  refine ⟨?_, ?_, ?_⟩
  · rw [e1]; omega
  · intro j led2 hled2 hr2 hji
    rw [(hinv.2.2 j led2 hled2 hr2).1, e1]
    exact hji
  · rw [e1]; exact e2

theorem records_consistent_witness :
    (example_lit.index : Int)
        < (apply_ops (example_constructed, { classdevs := [2, 1, 0] }) example_ops).1.num_leds
    ∧ (∀ (j : Nat) (led2 : led_nu801_led_data),
        (apply_ops (example_constructed, { classdevs := [2, 1, 0] }) example_ops).1.led_chain[j]?
          = some led2 →
        led2.registered = true → j ≠ 2 → led2.index ≠ example_lit.index)
    ∧ (apply_ops (example_constructed, { classdevs := [2, 1, 0] }) example_ops).1.chain_data[
          example_lit.index]?
        = some (led_nu801_get_pwm_value example_lit.level) :=
  records_consistent kernel_ok example_parsed { classdevs := [] } example_constructed
    { classdevs := [2, 1, 0] } example_ops (by decide) (by decide) (by decide) 2 example_lit
    (by decide) rfl

/-! ## Teardown -/

theorem delete_eq (c : led_nu801_data) (d : device) (j : Nat) (led : led_nu801_led_data)
    (hled : c.led_chain[j]? = some led) :
    (led_nu801_delete c d j).1
      = (if led.registered && decide (led.cdev_flags &&& LED_RETAIN_AT_SHUTDOWN = 0)
          then (led_nu801_set c j LED_OFF).2 else c) := by
  unfold led_nu801_delete
  rw [hled]
  dsimp only
  cases led.registered
  · simp
  · by_cases hret : led.cdev_flags &&& LED_RETAIN_AT_SHUTDOWN = 0
    · simp [hret]
    · simp [hret]

theorem delete_slot (c : led_nu801_data) (d : device) (j : Nat) (led : led_nu801_led_data)
    (hinv : chain_inv c) (hled : c.led_chain[j]? = some led) :
    (∀ i, i ≠ j →
        (led_nu801_delete c d j).1.led_chain[i]? = c.led_chain[i]?
        ∧ (led_nu801_delete c d j).1.chain_data[i]? = c.chain_data[i]?)
    ∧ (led_nu801_delete c d j).1.led_chain[j]? = some (off_led led)
    ∧ (led_nu801_delete c d j).1.chain_data[j]?
        = (if led.registered && decide (led.cdev_flags &&& LED_RETAIN_AT_SHUTDOWN = 0)
            then some (led_nu801_get_pwm_value LED_OFF) else c.chain_data[j]?) := by
  have hlt : j < c.led_chain.length := (List.getElem?_eq_some_iff.mp hled).1
  rw [delete_eq c d j led hled]
  unfold off_led
  cases hcond : (led.registered && decide (led.cdev_flags &&& LED_RETAIN_AT_SHUTDOWN = 0)) with
  | false =>
    simp [hled]
  | true =>
    simp only [if_true]
    have hr : led.registered = true := by
      cases h : led.registered
      · rw [h] at hcond; simp at hcond
      · rfl
    obtain ⟨hidx, hword⟩ := hinv.2.2 j led hled hr
    by_cases hlev : led.level = LED_OFF
    · rw [set_same c j LED_OFF led hled hlev]
      refine ⟨fun i _ => ⟨rfl, rfl⟩, ?_, ?_⟩
      · rw [hled, ← hlev]
      · rw [hword, hlev]
    · rw [set_changed c j LED_OFF led hled hlev]
      dsimp only
      rw [hidx]
      exact ⟨fun i hi =>
          ⟨List.getElem?_set_ne (Ne.symm hi), List.getElem?_set_ne (Ne.symm hi)⟩,
        List.getElem?_set_self hlt,
        List.getElem?_set_self (by rw [hinv.2.1, ← hinv.1]; exact hlt)⟩

theorem delete_num_leds (c : led_nu801_data) (d : device) (j : Nat) :
    (led_nu801_delete c d j).1.num_leds = c.num_leds := by
  unfold led_nu801_delete
  cases hled : c.led_chain[j]? with
  | none => rfl
  | some led_dat =>
    dsimp only
    cases hr : led_dat.registered with
    | false => rfl
    | true =>
      simp only [if_true]
      split
      · by_cases h : led_dat.level = LED_OFF
        · rw [set_same c j LED_OFF led_dat hled h]
        · rw [set_changed c j LED_OFF led_dat hled h]
      · rfl

theorem delete_loop_spec :
    ∀ (todo index : Nat) (c : led_nu801_data) (d : device),
      chain_inv c → index + todo = c.led_chain.length →
      ∃ c1 d1, delete_loop todo index c d = outcome.ret 0 (c1, d1)
        ∧ chain_inv c1 ∧ c1.num_leds = c.num_leds
        ∧ ∀ (i : Nat) (led : led_nu801_led_data), c.led_chain[i]? = some led →
            (i < index → c1.led_chain[i]? = some led ∧ c1.chain_data[i]? = c.chain_data[i]?)
            ∧ (index ≤ i → c1.led_chain[i]? = some (off_led led)
                ∧ c1.chain_data[i]?
                  = (if led.registered && decide (led.cdev_flags &&& LED_RETAIN_AT_SHUTDOWN = 0)
                      then some (led_nu801_get_pwm_value LED_OFF) else c.chain_data[i]?)) := by
  intro todo
  induction todo with
  | zero =>
    intro index c d hinv hlen
    refine ⟨c, d, rfl, hinv, rfl, ?_⟩
    intro i led hled
    have hlt : i < c.led_chain.length := (List.getElem?_eq_some_iff.mp hled).1
    exact ⟨fun _ => ⟨hled, rfl⟩, fun h => by omega⟩
  | succ todo ih =>
    intro index c d hinv hlen
    have hlt : index < c.led_chain.length := by omega
    have hcur : c.led_chain[index]? = some (c.led_chain[index]) := List.getElem?_eq_getElem hlt
    obtain ⟨s1, s2, s3⟩ := delete_slot c d index _ hinv hcur
    have hinv1 := delete_inv c d index hinv
    have hnum1 := delete_num_leds c d index
    have hlen1 : (led_nu801_delete c d index).1.led_chain.length = c.led_chain.length := by
      rw [hinv1.1, hinv.1, hnum1]
    obtain ⟨c1, d1, hrun, hinvf, hnumf, hspec⟩ := ih (index + 1) (led_nu801_delete c d index).1
      (led_nu801_delete c d index).2 hinv1 (by omega)
    refine ⟨c1, d1, ?_, hinvf, hnumf.trans hnum1, ?_⟩
    · rw [delete_loop, hcur]
      exact hrun
    · intro i led hled
      by_cases hi : i = index
      · subst hi
        rw [hcur] at hled
        injection hled with hled
        subst hled
        obtain ⟨g1, _⟩ := hspec i _ s2
        obtain ⟨g2, g3⟩ := g1 (by omega)
        refine ⟨fun h => by omega, fun _ => ⟨g2, ?_⟩⟩
        rw [g3, s3]
      · obtain ⟨t1, t2⟩ := s1 i hi
        obtain ⟨g1, g2⟩ := hspec i led (by rw [t1]; exact hled)
        constructor
        · intro h
          obtain ⟨a, b⟩ := g1 (by omega)
          exact ⟨a, b.trans t2⟩
        · intro h
          obtain ⟨a, b⟩ := g2 (by omega)
          refine ⟨a, ?_⟩
          rw [b, t2]

/-- C11: from every state in which the LED records are consistent with the buffer
(`chain_inv`), `led_nu801_delete_chain` returns, and afterwards every registered LED
whose retain-at-shutdown flag is clear has level 0 and buffer word 0 (also when its level
was 0 before), every registered LED whose retain flag is set keeps its record and its
buffer word, and a record that is not registered is unchanged, as is the buffer word at
its slot; the work item is left unqueued. -/
theorem teardown_forces_off (controller : led_nu801_data) (dev : device)
    (hinv : chain_inv controller) :
    ∃ tr c1 d1, led_nu801_delete_chain controller dev = outcome.ret 0 (tr, c1, d1)
      ∧ c1.work.queued = false
      ∧ ∀ (i : Nat) (led : led_nu801_led_data), controller.led_chain[i]? = some led →
          (led.registered = true → led.cdev_flags &&& LED_RETAIN_AT_SHUTDOWN = 0 →
            c1.led_chain[i]? = some { led with level := 0 }
            ∧ c1.chain_data[led.index]? = some 0)
          ∧ (led.registered = true → led.cdev_flags &&& LED_RETAIN_AT_SHUTDOWN ≠ 0 →
            c1.led_chain[i]? = some led
            ∧ c1.chain_data[led.index]? = controller.chain_data[led.index]?)
          ∧ (led.registered = false →
            c1.led_chain[i]? = some led
            ∧ c1.chain_data[i]? = controller.chain_data[i]?) := by
  obtain ⟨cl, dl, hrun, _, _, hspec⟩ := delete_loop_spec controller.num_leds.toNat 0
    controller dev hinv (by rw [hinv.1]; omega)
  have key : ∀ (c1 : led_nu801_data), c1.led_chain = cl.led_chain →
      c1.chain_data = cl.chain_data →
      ∀ (i : Nat) (led : led_nu801_led_data), controller.led_chain[i]? = some led →
          (led.registered = true → led.cdev_flags &&& LED_RETAIN_AT_SHUTDOWN = 0 →
            c1.led_chain[i]? = some { led with level := 0 }
            ∧ c1.chain_data[led.index]? = some 0)
          ∧ (led.registered = true → led.cdev_flags &&& LED_RETAIN_AT_SHUTDOWN ≠ 0 →
            c1.led_chain[i]? = some led
            ∧ c1.chain_data[led.index]? = controller.chain_data[led.index]?)
          ∧ (led.registered = false →
            c1.led_chain[i]? = some led
            ∧ c1.chain_data[i]? = controller.chain_data[i]?) := by
    intro c1 e1 e2 i led hled
    obtain ⟨g1, g2⟩ := (hspec i led hled).2 (by omega)
    rw [e1, e2]
    refine ⟨?_, ?_, ?_⟩
    · intro hr hret
      have hidx := (hinv.2.2 i led hled hr).1
      rw [hidx, g1, g2]
      simp [off_led, hr, hret, LED_OFF]
      exact ⟨hidx, by decide⟩
    · intro hr hret
      have hidx := (hinv.2.2 i led hled hr).1
      rw [hidx, g1, g2]
      simp [off_led, hr, hret]
    · intro hr
      rw [g1, g2]
      simp [off_led, hr]
  unfold led_nu801_delete_chain
  rw [hrun]
  dsimp only
  cases hq : cl.work.queued with
  | true =>
    simp only [if_true]
    exact ⟨_, _, _, rfl, rfl, key _ rfl rfl⟩
  | false =>
    simp only [Bool.false_eq_true, if_false]
    exact ⟨_, _, _, rfl, rfl, key _ rfl rfl⟩

theorem example_teardown_inv : chain_inv example_teardown := by
  refine ⟨rfl, rfl, ?_⟩
  intro i led hled _
  match i, hled with
  | 0, hled =>
    have e : led = { cdev_flags := 0, level := 255, registered := true, index := 0 } := by
      simpa [example_teardown] using hled.symm
    subst e
    exact ⟨rfl, by decide⟩
  | 1, hled =>
    have e : led = { cdev_flags := 4194304, level := 5, registered := true, index := 1 } := by
      simpa [example_teardown] using hled.symm
    subst e
    exact ⟨rfl, by decide⟩
  | n + 2, hled => simp [example_teardown] at hled

theorem teardown_forces_off_witness :
    ∃ tr c1 d1,
      led_nu801_delete_chain example_teardown { classdevs := [0, 1] }
        = outcome.ret 0 (tr, c1, d1)
      ∧ c1.work.queued = false
      ∧ ∀ (i : Nat) (led : led_nu801_led_data), example_teardown.led_chain[i]? = some led →
          (led.registered = true → led.cdev_flags &&& LED_RETAIN_AT_SHUTDOWN = 0 →
            c1.led_chain[i]? = some { led with level := 0 }
            ∧ c1.chain_data[led.index]? = some 0)
          ∧ (led.registered = true → led.cdev_flags &&& LED_RETAIN_AT_SHUTDOWN ≠ 0 →
            c1.led_chain[i]? = some led
            ∧ c1.chain_data[led.index]? = example_teardown.chain_data[led.index]?)
          ∧ (led.registered = false →
            c1.led_chain[i]? = some led
            ∧ c1.chain_data[i]? = example_teardown.chain_data[i]?) :=
  teardown_forces_off example_teardown { classdevs := [0, 1] } example_teardown_inv


/-! ## Clock-high phases, settle delays and lock events of a transmission -/

theorem lock_events_append (a b : List event) :
    lock_events (a ++ b) = lock_events a ++ lock_events b := by
  unfold lock_events
  exact List.filter_append _ _

theorem line_writes_append (a b : List event) :
    line_writes (a ++ b) = line_writes a ++ line_writes b := by
  unfold line_writes
  exact List.filter_append _ _

theorem lock_events_group (lei : Bool) (d w : Nat) (last : Bool) (js : List Nat) :
    lock_events (js.flatMap (bit_events lei d w last)) = [] := by
  induction js with
  | nil => rfl
  | cons j js ih =>
    rw [List.flatMap_cons, lock_events_append, ih]
    unfold bit_events lock_events
    split <;> simp

theorem line_writes_group (lei : Bool) (d w : Nat) (last : Bool) (js : List Nat) :
    (line_writes (js.flatMap (bit_events lei d w last))).length = 3 * js.length := by
  induction js with
  | nil => rfl
  | cons j js ih =>
    rw [List.flatMap_cons, line_writes_append, List.length_append, ih, List.length_cons]
    have : (line_writes (bit_events lei d w last j)).length = 3 := by
      unfold bit_events line_writes
      split <;> simp
    omega

theorem lock_events_word_loop (lei : Bool) (d : Nat) (cd : List Nat) (N : Nat) :
    ∀ (todo index : Nat), lock_events (word_loop lei d cd N todo index) = [] := by
  intro todo
  induction todo with
  | zero => intro index; rfl
  | succ todo ih =>
    intro index
    rw [word_loop, bit_loop_word, lock_events_append, lock_events_group, ih]
    rfl

theorem line_writes_word_loop (lei : Bool) (d : Nat) (cd : List Nat) (N : Nat) :
    ∀ (todo index : Nat),
      (line_writes (word_loop lei d cd N todo index)).length = 48 * todo := by
  intro todo
  induction todo with
  | zero => intro index; rfl
  | succ todo ih =>
    intro index
    rw [word_loop, bit_loop_word, line_writes_append, List.length_append, line_writes_group, ih]
    have : (bits_down 15).length = 16 := rfl
    omega

/-- C12 (amended): the transmitter holds the buffer lock for the whole shift loop. The
trace of one run of `led_nu801_work` over `n` words is the lock acquire, then a body,
then the lock release, then a tail, where the body holds all `48 * n` clock and data
writes, no lock event and no latch write, and the tail holds no clock or data write and
no lock event. So the lock is acquired exactly once, as the first event, and released
exactly once, after the last clock and data write; all `48 * n` clock and data writes
are made while it is held and none is made before the acquire or after the release. -/
theorem lock_spans_shift_loop (controller : led_nu801_data) (n : Nat)
    (hnum : controller.num_leds = (n : Int)) (hint : n < 2147483648) :
    (led_nu801_work controller).1.head? = some event.mutex_lock
    ∧ clock_data_writes true false (led_nu801_work controller).1 = 48 * n
    ∧ clock_data_writes false false (led_nu801_work controller).1 = 0
    ∧ lock_events (led_nu801_work controller).1 = [event.mutex_lock, event.mutex_unlock]
    ∧ ∃ body tail,
        (led_nu801_work controller).1
          = event.mutex_lock :: (body ++ event.mutex_unlock :: tail)
        ∧ lock_events body = [] ∧ latch_writes body = []
        ∧ (line_writes body).length = 48 * n
        ∧ lock_events tail = [] ∧ line_writes tail = [] := by
  have hu := u32_num_leds controller n hnum hint
  unfold led_nu801_work led_nu801_work_shift led_nu801_work_finish
  rw [hu]
  refine ⟨rfl, ?_, ?_, ?_, ?_⟩
  · rw [List.append_assoc, List.append_assoc, List.singleton_append]
    have e : ∀ t, clock_data_writes true false (event.mutex_lock :: t)
        = clock_data_writes true true t := by
      intro t; simp [clock_data_writes]
    rw [e, clock_data_writes_word_loop]
    cases controller.lei <;> simp [clock_data_writes]
  · rw [List.append_assoc, List.append_assoc, List.singleton_append]
    have e : ∀ t, clock_data_writes false false (event.mutex_lock :: t)
        = clock_data_writes false true t := by
      intro t; simp [clock_data_writes]
    rw [e, clock_data_writes_word_loop]
    cases controller.lei <;> simp [clock_data_writes]
  · rw [lock_events_append, lock_events_append, lock_events_append, lock_events_word_loop]
    cases controller.lei <;> simp [lock_events]
  · refine ⟨word_loop controller.lei controller.clock_delay_ns controller.chain_data n n 0,
      (if controller.lei then
        [event.lei true, event.ndelay controller.clock_delay_ns, event.lei false]
       else []), by simp, lock_events_word_loop _ _ _ _ _ _, latch_writes_word_loop _ _ _ _ _ _,
      line_writes_word_loop _ _ _ _ _ _, ?_, ?_⟩
    · cases controller.lei <;> simp [lock_events]
    · cases controller.lei <;> simp [line_writes]

theorem lock_spans_shift_loop_witness :
    (led_nu801_work example_latched).1.head? = some event.mutex_lock
    ∧ clock_data_writes true false (led_nu801_work example_latched).1 = 48 * 2
    ∧ clock_data_writes false false (led_nu801_work example_latched).1 = 0
    ∧ lock_events (led_nu801_work example_latched).1 = [event.mutex_lock, event.mutex_unlock]
    ∧ ∃ body tail,
        (led_nu801_work example_latched).1
          = event.mutex_lock :: (body ++ event.mutex_unlock :: tail)
        ∧ lock_events body = [] ∧ latch_writes body = []
        ∧ (line_writes body).length = 48 * 2
        ∧ lock_events tail = [] ∧ line_writes tail = [] :=
  lock_spans_shift_loop example_latched 2 rfl (by decide)
end NU801
